import Mathlib

/-!
Verification model of the Graph Validation Engine of `pipeline_prototype.py`.

The geometry and editor logic of the source file is embedded shallowly over
the rationals.  The source computes with Python floats; the embedding keeps
the exact real values instead:

* Each Euclidean distance `math.sqrt(d)` that the source stores is kept here
  as its square `d : ℚ`; the source only ever compares such distances with
  each other (and the square root is strictly monotone), so every comparison
  is translated to the comparison of the squares.
* Each perpendicularity score `1 - m / sqrt s` (with `m ≥ 0`, `s > 0`) is
  kept as the pair `(m, s) : Score`; the comparisons the source performs on
  scores (`<`, `>=` against a rational constant, and `abs (a - b) < 1e-9`)
  are translated to equivalent polynomial comparisons of `m` and `s`
  (documented at each definition).
* The one place where a square-root *value* (not a comparison) enters stored
  data is the connector-circle branch of `get_connection_point` (and its
  radius `sqrt (area / 3.14159)`).  The embedding takes the square-root
  function as an explicit oracle parameter `rt : ℚ → ℚ`; no theorem below
  depends on the value of `rt`, because no claim exercises that branch.

GUI-only effects of the source (Qt scene items, pens, colours, status-bar
messages, statistics callbacks) have no model state and are omitted.
-/

set_option allowUnsafeReducibility true in
attribute [semireducible] Rat.mul Rat.inv Rat.add Rat.sub Rat.div

namespace PidPipeline

/-- Points are Cartesian pairs `(x, y)` over `ℚ`, as in the geometry helpers
of the source. -/
abbrev Pt := ℚ × ℚ

/-- Axis classification returned by `global_axis_perpendicularity`:
`'horizontal'`, `'vertical'` or `'point'` (zero-length direction). -/
inductive Axis where
  | horizontal
  | vertical
  | point
deriving DecidableEq, Repr

/-- Render an `Axis` the way the source interpolates it into connection-type
strings. -/
def axisStr : Axis → String
  | .horizontal => "horizontal"
  | .vertical => "vertical"
  | .point => "point"

/-- Exact representation of a perpendicularity score.  The source stores the
float `1 - m / sqrt s`; the embedding stores the pair `(m, s)`.  All scores
produced by the code have `m ≥ 0` and `s > 0`; the loop sentinel
`best_score = -1.0` of the priority-4 searches is represented exactly by
`⟨2, 1⟩` (since `1 - 2 / sqrt 1 = -1`). -/
structure Score where
  m : ℚ
  s : ℚ
deriving DecidableEq, Repr

/-- `scoreGt a b` is the source comparison `score_a > score_b`:
`1 - a.m/√a.s > 1 - b.m/√b.s ↔ a.m/√a.s < b.m/√b.s ↔ a.m² · b.s < b.m² · a.s`
(all of `a.m, b.m ≥ 0` and `a.s, b.s > 0`). -/
def scoreGt (a b : Score) : Bool :=
  decide (a.m ^ 2 * b.s < b.m ^ 2 * a.s)

/-- `scoreGe a b` is `score_a ≥ score_b`, i.e. `a.m/√a.s ≤ b.m/√b.s`,
i.e. `a.m² · b.s ≤ b.m² · a.s`. -/
def scoreGe (a b : Score) : Bool :=
  decide (a.m ^ 2 * b.s ≤ b.m ^ 2 * a.s)

/-- `scoreGeQ a q` is the source comparison `score_a ≥ q` against a rational
constant `q`: `1 - a.m/√a.s ≥ q ↔ a.m/√a.s ≤ 1 - q`, which (with
`a.m ≥ 0`, `a.s > 0`) holds iff `0 ≤ 1 - q` and `a.m² ≤ (1 - q)² · a.s`. -/
def scoreGeQ (a : Score) (q : ℚ) : Bool :=
  decide (0 ≤ 1 - q) && decide (a.m ^ 2 ≤ (1 - q) ^ 2 * a.s)

/-- One direction of the fuzzy equality of scores:
`a.m/√a.s < b.m/√b.s + ε` for `ε > 0`.  Squaring twice (all quantities
involved are nonnegative) this is `L < 0 ∨ L² < 4 ε² b.m² / b.s` where
`L = a.m²/a.s - b.m²/b.s - ε²`. -/
def scoreLtAddEps (a b : Score) (eps : ℚ) : Bool :=
  let L : ℚ := a.m ^ 2 / a.s - b.m ^ 2 / b.s - eps ^ 2
  decide (L < 0) || decide (L ^ 2 < 4 * eps ^ 2 * b.m ^ 2 / b.s)

/-- The source comparison `abs (score_a - score_b) < ε` (used with
`ε = 1e-9` in the priority-4 searches). -/
def scoreDiffLt (a b : Score) (eps : ℚ) : Bool :=
  scoreLtAddEps a b eps && scoreLtAddEps b a eps

/-- The tolerance `1e-9` of the source. -/
def eps9 : ℚ := 1 / 1000000000

/-- `dist < best_dist` where `best_dist` may be the float `inf` sentinel
(`none`); the operands are squared distances. -/
def distSqLt (d : ℚ) : Option ℚ → Bool
  | none => true
  | some b => decide (d < b)

/-- `_segments_overlap_1d(a1, a2, b1, b2)`: overlap of two 1-D segments,
returning `(overlaps, start, end)`. -/
def segmentsOverlap1d (a1 a2 b1 b2 : ℚ) : Bool × ℚ × ℚ :=
  let s := max (min a1 a2) (min b1 b2)
  let e := min (max a1 a2) (max b1 b2)
  if s ≤ e then (true, s, e) else (false, 0, 0)

/-- `_point_to_segment_closest(px, py, ax, ay, bx, by)`.  The source returns
`(x, y, distance)`; the embedding returns the point together with the
*squared* distance.  The degeneracy test `length_sq < 1e-9` of the source is
already a test on the squared length and is kept verbatim. -/
def pointToSegmentClosest (px py ax ay bx bY : ℚ) : Pt × ℚ :=
  let dx := bx - ax
  let dy := bY - ay
  let lengthSq := dx * dx + dy * dy
  if lengthSq < eps9 then
    ((ax, ay), (px - ax) ^ 2 + (py - ay) ^ 2)
  else
    let t := max 0 (min 1 (((px - ax) * dx + (py - ay) * dy) / lengthSq))
    let cx := ax + t * dx
    let cy := ay + t * dy
    ((cx, cy), (px - cx) ^ 2 + (py - cy) ^ 2)

/-- `_polygon_to_edges(polygon)`: the flat list `[x1, y1, x2, y2, …]` as a
list of cyclically consecutive edges. -/
def polygonToEdges (poly : List ℚ) : List (Pt × Pt) :=
  let n := poly.length / 2
  (List.range n).map (fun i =>
    ((poly.getD (i * 2) 0, poly.getD (i * 2 + 1) 0),
     (poly.getD ((i + 1) % n * 2) 0, poly.getD ((i + 1) % n * 2 + 1) 0)))

/-- Centroid of a flat polygon (arithmetic mean of the vertices), as computed
inline by the polygon connectors. -/
def polyCentroid (poly : List ℚ) : Pt :=
  let n := poly.length / 2
  let sx := ((List.range n).map (fun i => poly.getD (i * 2) 0)).sum
  let sy := ((List.range n).map (fun i => poly.getD (i * 2 + 1) 0)).sum
  (sx / n, sy / n)

/-- `_closest_points_between_segments(a1, a2, b1, b2)`: of the four
endpoint-to-segment projections, the pair with the smallest distance; Python
`min` keeps the first minimum, modelled by replacing only on a strictly
smaller (squared) distance. -/
def closestPointsBetweenSegments (a1 a2 b1 b2 : Pt) : Pt × Pt × ℚ :=
  let c1 := let (p, d) := pointToSegmentClosest a1.1 a1.2 b1.1 b1.2 b2.1 b2.2; (a1, p, d)
  let c2 := let (p, d) := pointToSegmentClosest a2.1 a2.2 b1.1 b1.2 b2.1 b2.2; (a2, p, d)
  let c3 := let (p, d) := pointToSegmentClosest b1.1 b1.2 a1.1 a1.2 a2.1 a2.2; (p, b1, d)
  let c4 := let (p, d) := pointToSegmentClosest b2.1 b2.2 a1.1 a1.2 a2.1 a2.2; (p, b2, d)
  [c2, c3, c4].foldl (fun best c => if c.2.2 < best.2.2 then c else best) c1

/-- `global_axis_perpendicularity(dx, dy)`.  The source tests
`sqrt (dx² + dy²) < 1e-9`, i.e. `dx² + dy² < 1e-18`, and otherwise compares
`horiz_score = 1 - |dy|/len` with `vert_score = 1 - |dx|/len`; the branch
condition `horiz_score ≥ vert_score` is exactly `|dy| ≤ |dx|`. -/
def globalAxisPerpendicularity (dx dy : ℚ) : Score × Axis :=
  let s := dx * dx + dy * dy
  if s < 1 / 1000000000000000000 then
    (⟨0, 1⟩, .point)
  else if |dy| ≤ |dx| then
    (⟨|dy|, s⟩, .horizontal)
  else
    (⟨|dx|, s⟩, .vertical)

/-- `PERPENDICULARITY_THRESHOLD` of the source, verbatim: `1.0`. -/
def PERPENDICULARITY_THRESHOLD : ℚ := 1

/-- Result of `compute_edge_perpendicularity`.  The `angle` entry
(`degrees (asin (1 - score))`) of the source dict is display-only and has no
rational value; it is omitted, as are the duplicated compatibility fields. -/
structure PerpInfo where
  score : Score
  axis : Axis
  isGood : Bool
deriving DecidableEq, Repr

/-- `compute_edge_perpendicularity(edge_start, edge_end, …)`; the geometry
arguments of the source are unused there and dropped. -/
def computeEdgePerpendicularity (es ee : Pt) : PerpInfo :=
  let dx := ee.1 - es.1
  let dy := ee.2 - es.2
  let (score, axis) := globalAxisPerpendicularity dx dy
  ⟨score, axis, scoreGeQ score PERPENDICULARITY_THRESHOLD⟩

/-- An axis-aligned box `[x1, y1, x2, y2]` (the source passes bboxes as
4-element lists). -/
structure BBoxQ where
  x1 : ℚ
  y1 : ℚ
  x2 : ℚ
  y2 : ℚ
deriving DecidableEq, Repr

/-- A candidate contact pair of priorities 1–3:
`(point_a, point_b, distance, priority, connection_type)`.  These distances
are coordinate differences computed without square roots in the source, so
they are plain rationals. -/
structure Cand where
  pa : Pt
  pb : Pt
  dist : ℚ
  prio : ℕ
  ctype : String
deriving DecidableEq, Repr

/-- `required_axis is None or required_axis == ax`. -/
def raOk (ra : Option Axis) (ax : Axis) : Bool :=
  decide (ra = none ∨ ra = some ax)

/-- One step of the candidate selection: keep the incumbent unless the new
candidate has a strictly smaller `(priority, distance)` key. -/
def pickCand (best d : Cand) : Cand :=
  if d.prio < best.prio ∨ (d.prio = best.prio ∧ d.dist < best.dist) then d
  else best

/-- `candidates.sort(key=lambda c: (c[3], c[2]))[0]` for a non-empty list:
the head of a stable sort by `(priority, distance)` is the first element
with the lexicographically least key, i.e. the fold that replaces the
current best only on a strictly smaller key. -/
def chooseBestC : List Cand → Option Cand
  | [] => none
  | c :: cs => some (cs.foldl pickCand c)

/-- The priority-1–3 candidate list built by `connect_bbox_bbox`, in source
append order: priority 1 vertical, priority 1 horizontal, priority 2
vertical, priority 2 horizontal, priority 3 vertical overlap, priority 3
horizontal overlap. -/
def bboxCandidates (a b : BBoxQ) (ra : Option Axis) : List Cand :=
  let acx := (a.x1 + a.x2) / 2
  let acy := (a.y1 + a.y2) / 2
  let bcx := (b.x1 + b.x2) / 2
  let bcy := (b.y1 + b.y2) / 2
  let c1v : List Cand :=
    if raOk ra .vertical ∧ b.x1 ≤ acx ∧ acx ≤ b.x2 then
      if acy < b.y1 then
        if (0 : ℚ) ≤ b.y1 - a.y2 then
          [⟨(acx, a.y2), (acx, b.y1), b.y1 - a.y2, 1, "vertical_center_a"⟩] else []
      else if acy > b.y2 then
        if (0 : ℚ) ≤ a.y1 - b.y2 then
          [⟨(acx, a.y1), (acx, b.y2), a.y1 - b.y2, 1, "vertical_center_a"⟩] else []
      else []
    else []
  let c1h : List Cand :=
    if raOk ra .horizontal ∧ b.y1 ≤ acy ∧ acy ≤ b.y2 then
      if acx < b.x1 then
        if (0 : ℚ) ≤ b.x1 - a.x2 then
          [⟨(a.x2, acy), (b.x1, acy), b.x1 - a.x2, 1, "horizontal_center_a"⟩] else []
      else if acx > b.x2 then
        if (0 : ℚ) ≤ a.x1 - b.x2 then
          [⟨(a.x1, acy), (b.x2, acy), a.x1 - b.x2, 1, "horizontal_center_a"⟩] else []
      else []
    else []
  let c2v : List Cand :=
    if raOk ra .vertical ∧ a.x1 ≤ bcx ∧ bcx ≤ a.x2 then
      if bcy < a.y1 then
        if (0 : ℚ) ≤ a.y1 - b.y2 then
          [⟨(bcx, a.y1), (bcx, b.y2), a.y1 - b.y2, 2, "vertical_center_b"⟩] else []
      else if bcy > a.y2 then
        if (0 : ℚ) ≤ b.y1 - a.y2 then
          [⟨(bcx, a.y2), (bcx, b.y1), b.y1 - a.y2, 2, "vertical_center_b"⟩] else []
      else []
    else []
  let c2h : List Cand :=
    if raOk ra .horizontal ∧ a.y1 ≤ bcy ∧ bcy ≤ a.y2 then
      if bcx < a.x1 then
        if (0 : ℚ) ≤ a.x1 - b.x2 then
          [⟨(a.x1, bcy), (b.x2, bcy), a.x1 - b.x2, 2, "horizontal_center_b"⟩] else []
      else if bcx > a.x2 then
        if (0 : ℚ) ≤ b.x2 - a.x1 then
          [⟨(a.x2, bcy), (b.x1, bcy), b.x2 - a.x1, 2, "horizontal_center_b"⟩] else []
      else []
    else []
  let ox := segmentsOverlap1d a.x1 a.x2 b.x1 b.x2
  let oy := segmentsOverlap1d a.y1 a.y2 b.y1 b.y2
  let c3v : List Cand :=
    if raOk ra .vertical ∧ ox.1 = true ∧ oy.1 = false then
      let x := (ox.2.1 + ox.2.2) / 2
      let (pa, pb, dist) : Pt × Pt × ℚ :=
        if acy < bcy then ((x, a.y2), (x, b.y1), b.y1 - a.y2)
        else ((x, a.y1), (x, b.y2), a.y1 - b.y2)
      if (0 : ℚ) ≤ dist then [⟨pa, pb, |dist|, 3, "vertical_overlap"⟩] else []
    else []
  let c3h : List Cand :=
    if raOk ra .horizontal ∧ oy.1 = true ∧ ox.1 = false then
      let y := (oy.2.1 + oy.2.2) / 2
      let (pa, pb, dist) : Pt × Pt × ℚ :=
        if acx < bcx then ((a.x2, y), (b.x1, y), b.x1 - a.x2)
        else ((a.x1, y), (b.x2, y), a.x1 - b.x2)
      if (0 : ℚ) ≤ dist then [⟨pa, pb, |dist|, 3, "horizontal_overlap"⟩] else []
    else []
  c1v ++ c1h ++ c2v ++ c2h ++ c3v ++ c3h

/-- `overlap_x and overlap_y` of `connect_bbox_bbox`. -/
def bothOverlap (a b : BBoxQ) : Bool :=
  (segmentsOverlap1d a.x1 a.x2 b.x1 b.x2).1 && (segmentsOverlap1d a.y1 a.y2 b.y1 b.y2).1

/-- Loop state of the priority-4 wall-to-wall searches: the current best
score, squared distance (`none` is the `inf` sentinel), contact pair and
connection type. -/
structure L4Best where
  score : Score
  dsq : Option ℚ
  pa : Pt
  pb : Pt
  ctype : String
deriving DecidableEq, Repr

/-- One update step of a priority-4 search: replace the best candidate when
`score > best_score or (abs(score - best_score) < 1e-9 and dist < best_dist)`. -/
def l4Step (best : L4Best) (score : Score) (dsq : ℚ) (pa pb : Pt) (ctype : String) : L4Best :=
  if scoreGt score best.score || (scoreDiffLt score best.score eps9 && distSqLt dsq best.dsq) then
    ⟨score, some dsq, pa, pb, ctype⟩
  else best

/-- The four sides of a box in source order: top, bottom, left, right. -/
def bboxSides (b : BBoxQ) : List (Pt × Pt × String) :=
  [((b.x1, b.y1), (b.x2, b.y1), "top"),
   ((b.x1, b.y2), (b.x2, b.y2), "bottom"),
   ((b.x1, b.y1), (b.x1, b.y2), "left"),
   ((b.x2, b.y1), (b.x2, b.y2), "right")]

/-- `connect_bbox_bbox(bbox_a, bbox_b, required_axis)`.
Returns `(point_a, point_b, connection_type)`.  The source collects the
priority-1–3 candidates, then returns centroids with type `"overlapping"`
when the boxes overlap on both axes, then the best (priority, distance)
candidate, and otherwise runs the priority-4 wall-to-wall search seeded with
`best_score = -1.0` (the exact score `⟨2, 1⟩`), `best_dist = inf` and the
centroid pair with type `"diagonal"`. -/
def connectBboxBbox (a b : BBoxQ) (ra : Option Axis) : Pt × Pt × String :=
  let acx := (a.x1 + a.x2) / 2
  let acy := (a.y1 + a.y2) / 2
  let bcx := (b.x1 + b.x2) / 2
  let bcy := (b.y1 + b.y2) / 2
  if bothOverlap a b then ((acx, acy), (bcx, bcy), "overlapping")
  else match chooseBestC (bboxCandidates a b ra) with
  | some best => (best.pa, best.pb, best.ctype)
  | none =>
    let pairs := (bboxSides a).flatMap (fun sa => (bboxSides b).map (fun sb => (sa, sb)))
    let best := pairs.foldl
      (fun best p =>
        let (pa, pb, dsq) := closestPointsBetweenSegments p.1.1 p.1.2.1 p.2.1 p.2.2.1
        let (score, axis) := globalAxisPerpendicularity (pb.1 - pa.1) (pb.2 - pa.2)
        if ra ≠ none ∧ some axis ≠ ra then best
        else l4Step best score dsq pa pb ("diagonal_" ++ axisStr axis))
      (⟨⟨2, 1⟩, none, (acx, acy), (bcx, bcy), "diagonal"⟩ : L4Best)
    (best.pa, best.pb, best.ctype)

/-- The squared form of the source's `1e-9` length tolerance: a true
distance `d` satisfies `d < 1e-9` iff `d² < 1e-18`. -/
def eps18 : ℚ := 1 / 1000000000000000000

/-- `connect_point_bbox(point, bbox, required_axis)`:
`(point, point_on_bbox, connection_type)`.  Vertical candidates carry
priority 1 and horizontal candidates priority 2. -/
def connectPointBbox (p : Pt) (b : BBoxQ) (ra : Option Axis) : Pt × Pt × String :=
  let px := p.1
  let py := p.2
  let c1 : List Cand :=
    if raOk ra .vertical ∧ b.x1 ≤ px ∧ px ≤ b.x2 then
      if py < b.y1 then [⟨p, (px, b.y1), b.y1 - py, 1, "vertical_to_top"⟩]
      else if py > b.y2 then [⟨p, (px, b.y2), py - b.y2, 1, "vertical_to_bottom"⟩]
      else []
    else []
  let c2 : List Cand :=
    if raOk ra .horizontal ∧ b.y1 ≤ py ∧ py ≤ b.y2 then
      if px < b.x1 then [⟨p, (b.x1, py), b.x1 - px, 2, "horizontal_to_left"⟩]
      else if px > b.x2 then [⟨p, (b.x2, py), px - b.x2, 2, "horizontal_to_right"⟩]
      else []
    else []
  match chooseBestC (c1 ++ c2) with
  | some best => (best.pa, best.pb, best.ctype)
  | none =>
    let best := (bboxSides b).foldl
      (fun best side =>
        let (c, dsq) := pointToSegmentClosest px py side.1.1 side.1.2 side.2.1.1 side.2.1.2
        let (score, axis) := globalAxisPerpendicularity (c.1 - px) (c.2 - py)
        if ra ≠ none ∧ some axis ≠ ra then best
        else l4Step best score dsq p c ("diagonal_" ++ axisStr axis ++ "_to_" ++ side.2.2))
      (⟨⟨2, 1⟩, none, p, ((b.x1 + b.x2) / 2, (b.y1 + b.y2) / 2), "diagonal"⟩ : L4Best)
    (p, best.pb, best.ctype)

/-- `connect_point_polygon(point, polygon, required_axis)`:
`(point, point_on_polygon, info)`.  The `info` dict of the source is
discarded by every caller embedded here; it is modelled by a summary string
(`"vertical"`, `"horizontal"`, `"diagonal_…"`, `"fallback"`). -/
def connectPointPolygon (p : Pt) (poly : List ℚ) (ra : Option Axis) : Pt × Pt × String :=
  let px := p.1
  let py := p.2
  let edges := polygonToEdges poly
  let c1 : List Cand :=
    if raOk ra .vertical then
      edges.flatMap (fun e =>
        if min e.1.1 e.2.1 ≤ px ∧ px ≤ max e.1.1 e.2.1 ∧ |e.2.1 - e.1.1| > eps9 then
          let t := (px - e.1.1) / (e.2.1 - e.1.1)
          if 0 ≤ t ∧ t ≤ 1 then
            [⟨p, (px, e.1.2 + t * (e.2.2 - e.1.2)), |e.1.2 + t * (e.2.2 - e.1.2) - py|, 1, "vertical"⟩]
          else []
        else [])
    else []
  let c2 : List Cand :=
    if raOk ra .horizontal then
      edges.flatMap (fun e =>
        if min e.1.2 e.2.2 ≤ py ∧ py ≤ max e.1.2 e.2.2 ∧ |e.2.2 - e.1.2| > eps9 then
          let t := (py - e.1.2) / (e.2.2 - e.1.2)
          if 0 ≤ t ∧ t ≤ 1 then
            [⟨p, (e.1.1 + t * (e.2.1 - e.1.1), py), |e.1.1 + t * (e.2.1 - e.1.1) - px|, 2, "horizontal"⟩]
          else []
        else [])
    else []
  match chooseBestC (c1 ++ c2) with
  | some best => (best.pa, best.pb, best.ctype)
  | none =>
    let best := edges.foldl
      (fun best e =>
        let (c, dsq) := pointToSegmentClosest px py e.1.1 e.1.2 e.2.1 e.2.2
        if dsq < eps18 then best
        else
          let (score, axis) := globalAxisPerpendicularity (c.1 - px) (c.2 - py)
          if ra ≠ none ∧ some axis ≠ ra then best
          else l4Step best score dsq p c ("diagonal_" ++ axisStr axis))
      (⟨⟨2, 1⟩, none, p, p, ""⟩ : L4Best)
    if best.ctype = "" then (p, polyCentroid poly, "fallback")
    else (p, best.pb, best.ctype)

/-- `connect_bbox_polygon(bbox, polygon, required_axis)`:
`(point_on_bbox, point_on_polygon, info)`; the `info` dict is modelled by a
summary string as in `connectPointPolygon`.  Both the vertical and the
horizontal perpendicular from the bbox centre carry priority 1; the
perpendiculars from the polygon centroid carry priority 2 and land on the
polygon *centroid*, not on its boundary. -/
def connectBboxPolygon (b : BBoxQ) (poly : List ℚ) (ra : Option Axis) : Pt × Pt × String :=
  let bcx := (b.x1 + b.x2) / 2
  let bcy := (b.y1 + b.y2) / 2
  let pc := polyCentroid poly
  let edges := polygonToEdges poly
  let c1v : List Cand :=
    if raOk ra .vertical then
      edges.flatMap (fun e =>
        if min e.1.1 e.2.1 ≤ bcx ∧ bcx ≤ max e.1.1 e.2.1 ∧ |e.2.1 - e.1.1| > eps9 then
          let t := (bcx - e.1.1) / (e.2.1 - e.1.1)
          if 0 ≤ t ∧ t ≤ 1 then
            let py := e.1.2 + t * (e.2.2 - e.1.2)
            if py < b.y1 then
              if (0 : ℚ) ≤ b.y1 - py then [⟨(bcx, b.y1), (bcx, py), b.y1 - py, 1, "vertical"⟩] else []
            else if py > b.y2 then
              if (0 : ℚ) ≤ py - b.y2 then [⟨(bcx, b.y2), (bcx, py), py - b.y2, 1, "vertical"⟩] else []
            else []
          else []
        else [])
    else []
  let c1h : List Cand :=
    if raOk ra .horizontal then
      edges.flatMap (fun e =>
        if min e.1.2 e.2.2 ≤ bcy ∧ bcy ≤ max e.1.2 e.2.2 ∧ |e.2.2 - e.1.2| > eps9 then
          let t := (bcy - e.1.2) / (e.2.2 - e.1.2)
          if 0 ≤ t ∧ t ≤ 1 then
            let px := e.1.1 + t * (e.2.1 - e.1.1)
            if px < b.x1 then
              if (0 : ℚ) ≤ b.x1 - px then [⟨(b.x1, bcy), (px, bcy), b.x1 - px, 1, "horizontal"⟩] else []
            else if px > b.x2 then
              if (0 : ℚ) ≤ px - b.x2 then [⟨(b.x2, bcy), (px, bcy), px - b.x2, 1, "horizontal"⟩] else []
            else []
          else []
        else [])
    else []
  let c2v : List Cand :=
    if raOk ra .vertical ∧ b.x1 ≤ pc.1 ∧ pc.1 ≤ b.x2 then
      if pc.2 < b.y1 then [⟨(pc.1, b.y1), pc, b.y1 - pc.2, 2, "vertical"⟩]
      else if pc.2 > b.y2 then [⟨(pc.1, b.y2), pc, pc.2 - b.y2, 2, "vertical"⟩]
      else []
    else []
  let c2h : List Cand :=
    if raOk ra .horizontal ∧ b.y1 ≤ pc.2 ∧ pc.2 ≤ b.y2 then
      if pc.1 < b.x1 then [⟨(b.x1, pc.2), pc, b.x1 - pc.1, 2, "horizontal"⟩]
      else if pc.1 > b.x2 then [⟨(b.x2, pc.2), pc, pc.1 - b.x2, 2, "horizontal"⟩]
      else []
    else []
  match chooseBestC (c1v ++ c1h ++ c2v ++ c2h) with
  | some best => (best.pa, best.pb, best.ctype)
  | none =>
    let pairs := (bboxSides b).flatMap (fun sb => edges.map (fun e => (sb, e)))
    let best := pairs.foldl
      (fun best p =>
        let (pa, pb, dsq) := closestPointsBetweenSegments p.1.1 p.1.2.1 p.2.1 p.2.2
        let (score, axis) := globalAxisPerpendicularity (pb.1 - pa.1) (pb.2 - pa.2)
        if ra ≠ none ∧ some axis ≠ ra then best
        else l4Step best score dsq pa pb ("diagonal_" ++ axisStr axis))
      (⟨⟨2, 1⟩, none, (bcx, bcy), pc, ""⟩ : L4Best)
    if best.ctype = "" then ((bcx, bcy), pc, "fallback")
    else (best.pa, best.pb, best.ctype)

/-- `connect_polygon_polygon(polygon_a, polygon_b, required_axis)`:
`(point_a, point_b, info)`; the `info` dict is modelled by a summary string.
The priority-1/2 perpendiculars start at the respective polygon *centroid*
(`point_a = (ca_x, ca_y)`), not at the boundary of `A`. -/
def connectPolygonPolygon (polyA polyB : List ℚ) (ra : Option Axis) : Pt × Pt × String :=
  let ca := polyCentroid polyA
  let cb := polyCentroid polyB
  let edgesA := polygonToEdges polyA
  let edgesB := polygonToEdges polyB
  let c1v : List Cand :=
    if raOk ra .vertical then
      edgesB.flatMap (fun e =>
        if min e.1.1 e.2.1 ≤ ca.1 ∧ ca.1 ≤ max e.1.1 e.2.1 ∧ |e.2.1 - e.1.1| > eps9 then
          let t := (ca.1 - e.1.1) / (e.2.1 - e.1.1)
          if 0 ≤ t ∧ t ≤ 1 then
            let py := e.1.2 + t * (e.2.2 - e.1.2)
            [⟨ca, (ca.1, py), |py - ca.2|, 1, "vertical"⟩]
          else []
        else [])
    else []
  let c1h : List Cand :=
    if raOk ra .horizontal then
      edgesB.flatMap (fun e =>
        if min e.1.2 e.2.2 ≤ ca.2 ∧ ca.2 ≤ max e.1.2 e.2.2 ∧ |e.2.2 - e.1.2| > eps9 then
          let t := (ca.2 - e.1.2) / (e.2.2 - e.1.2)
          if 0 ≤ t ∧ t ≤ 1 then
            let px := e.1.1 + t * (e.2.1 - e.1.1)
            [⟨ca, (px, ca.2), |px - ca.1|, 1, "horizontal"⟩]
          else []
        else [])
    else []
  let c2v : List Cand :=
    if raOk ra .vertical then
      edgesA.flatMap (fun e =>
        if min e.1.1 e.2.1 ≤ cb.1 ∧ cb.1 ≤ max e.1.1 e.2.1 ∧ |e.2.1 - e.1.1| > eps9 then
          let t := (cb.1 - e.1.1) / (e.2.1 - e.1.1)
          if 0 ≤ t ∧ t ≤ 1 then
            let py := e.1.2 + t * (e.2.2 - e.1.2)
            [⟨(cb.1, py), cb, |py - cb.2|, 2, "vertical"⟩]
          else []
        else [])
    else []
  let c2h : List Cand :=
    if raOk ra .horizontal then
      edgesA.flatMap (fun e =>
        if min e.1.2 e.2.2 ≤ cb.2 ∧ cb.2 ≤ max e.1.2 e.2.2 ∧ |e.2.2 - e.1.2| > eps9 then
          let t := (cb.2 - e.1.2) / (e.2.2 - e.1.2)
          if 0 ≤ t ∧ t ≤ 1 then
            let px := e.1.1 + t * (e.2.1 - e.1.1)
            [⟨(px, cb.2), cb, |px - cb.1|, 2, "horizontal"⟩]
          else []
        else [])
    else []
  match chooseBestC (c1v ++ c1h ++ c2v ++ c2h) with
  | some best => (best.pa, best.pb, best.ctype)
  | none =>
    let pairs := edgesA.flatMap (fun ea => edgesB.map (fun eb => (ea, eb)))
    let best := pairs.foldl
      (fun best p =>
        let (pa, pb, dsq) := closestPointsBetweenSegments p.1.1 p.1.2 p.2.1 p.2.2
        if dsq < eps18 then best
        else
          let (score, axis) := globalAxisPerpendicularity (pb.1 - pa.1) (pb.2 - pa.2)
          if ra ≠ none ∧ some axis ≠ ra then best
          else l4Step best score dsq pa pb ("diagonal_" ++ axisStr axis))
      (⟨⟨2, 1⟩, none, ca, cb, ""⟩ : L4Best)
    if best.ctype = "" then (ca, cb, "fallback")
    else (best.pa, best.pb, best.ctype)

/-- A node record of `GraphValidatorEditor.nodes`.  `centroid` is stored in
the `[y, x]` (row, column) order of the load schema, exactly as in the
source; `ntype` holds the effective value of `node.get('type', 'connector')`.
Display-only metadata (`class_id`, `class_name`, `yolo_idx`, `degree`) is
omitted. -/
structure NodeR where
  id : String
  ntype : String
  centroid : ℚ × ℚ
  area : Option ℚ
  bbox : Option BBoxQ
  segmentation : Option (List ℚ)
  manual : Bool
deriving DecidableEq, Repr

/-- An edge record of `GraphValidatorEditor.edges_data`.  `sourcePoint` and
`targetPoint` are stored in `[y, x]` order as in the source.  `connType`
models the debug field `connection_type` written by `add_edge` (absent on
records from `_create_edge_with_points` and on loaded records).  The fields
`id`, `length`, `is_terminal`, `color`, `straight_line_distance` and
`manual` are constant metadata never read back by the editor and are
omitted. -/
structure EdgeR where
  source : String
  target : String
  sourcePoint : Option (ℚ × ℚ)
  targetPoint : Option (ℚ × ℚ)
  connType : Option String
deriving DecidableEq, Repr

/-- Python's lexicographic code-point order on strings (used by the source
through `min`/`max` on node ids), computed on the character lists. -/
def strLtL : List Char → List Char → Bool
  | [], [] => false
  | [], _ :: _ => true
  | _ :: _, [] => false
  | a :: as, b :: bs =>
    if a.toNat < b.toNat then true
    else if b.toNat < a.toNat then false
    else strLtL as bs

/-- `a < b` on strings in Python's code-point order. -/
def strLt (a b : String) : Bool := strLtL a.data b.data

/-- `_edge_key(a, b) = (min(a, b), max(a, b))`: Python `min` returns `a`
when `a ≤ b`. -/
def edgeKey (a b : String) : String × String :=
  if strLt b a then (b, a) else (a, b)

/-- The undo records pushed by the editor commands, one variant per command
type, carrying exactly the data of the corresponding Python tuple. -/
inductive URec where
  | addEdge (a b : String) (e : EdgeR)
  | removeEdge (a b : String) (e : Option EdgeR)
  | addConnectorOnEdge (newId a b : String) (old : Option EdgeR)
  | addConnectorIsolated (newId : String)
  | deleteNode (id : String) (node : NodeR) (edgesBackup : List EdgeR)
      (mergedNeighbors : List String) (newEdge : Option EdgeR)
  | dragNode (id : String) (oldCentroid : ℚ × ℚ)
      (oldPoints : List ((String × String) × Option (ℚ × ℚ) × Option (ℚ × ℚ)))
  | optimizeEdge (a b : String) (oldSp oldTp : Option (ℚ × ℚ))
deriving DecidableEq, Repr

/-- The editor state: `nodes` models the insertion-ordered dict
`self.nodes`, `edges` the set `self.edges` (as a duplicate-free list),
`edgesData` the list `self.edges_data`, `manualCounter` the counter
`self.manual_node_counter`, `undoStack` the deque `self.undo_stack`
(newest record first, capacity `MAX_UNDO_STEPS = 50`) and `perpScores` the
insertion-ordered dict `self.edge_perp_scores`. -/
structure EState where
  nodes : List NodeR
  edges : List (String × String)
  edgesData : List EdgeR
  manualCounter : ℕ
  undoStack : List URec
  perpScores : List ((String × String) × PerpInfo)
deriving DecidableEq, Repr

/-- First node with the given id in a node list. -/
def lookupIn (l : List NodeR) (id : String) : Option NodeR :=
  l.find? (fun n => n.id == id)

/-- Dict lookup `self.nodes[id]` (first record with the id). -/
def lookupNode (s : EState) (id : String) : Option NodeR :=
  lookupIn s.nodes id

/-- Dict assignment `self.nodes[n.id] = n`: replace an existing entry in
place, else append. -/
def insertNode (l : List NodeR) (n : NodeR) : List NodeR :=
  if l.any (fun m => m.id == n.id) then l.map (fun m => if m.id == n.id then n else m)
  else l ++ [n]

/-- `self.edges.add(k)` (set semantics on the list model). -/
def edgesAdd (l : List (String × String)) (k : String × String) : List (String × String) :=
  if k ∈ l then l else l ++ [k]

/-- First record of `edges_data` whose key is `k` (the
`for edge in self.edges_data: if _edge_key(...) == key` search). -/
def findEdgeRecord (l : List EdgeR) (k : String × String) : Option EdgeR :=
  l.find? (fun e => edgeKey e.source e.target == k)

/-- Remove the first element satisfying `p` (the `pop(i)` after an index
search; the list is unchanged when nothing matches, as in the source). -/
def eraseFirstP : List EdgeR → (EdgeR → Bool) → List EdgeR
  | [], _ => []
  | e :: es, p => if p e then es else e :: eraseFirstP es p

/-- Replace the first record with key `k` using `f` (mutation of the dict
object found by the index search). -/
def updateFirstRecord : List EdgeR → (String × String) → (EdgeR → EdgeR) → List EdgeR
  | [], _, _ => []
  | e :: es, k, f =>
    if edgeKey e.source e.target == k then f e :: es
    else e :: updateFirstRecord es k f

/-- Remove the first occurrence of the value `e`
(`self.edges_data.remove(edge_data)` guarded by a membership test). -/
def eraseFirstVal (l : List EdgeR) (e : EdgeR) : List EdgeR :=
  eraseFirstP l (fun d => d == e)

/-- Dict update `self.edge_perp_scores[k] = v`: replace in place or
append. -/
def perpSet (l : List ((String × String) × PerpInfo)) (k : String × String)
    (v : PerpInfo) : List ((String × String) × PerpInfo) :=
  if l.any (fun p => p.1 == k) then l.map (fun p => if p.1 == k then (k, v) else p)
  else l ++ [(k, v)]

/-- `MAX_UNDO_STEPS` of the source. -/
def MAX_UNDO_STEPS : ℕ := 50

/-- Push onto the bounded undo deque (`deque(maxlen=MAX_UNDO_STEPS)`;
newest record first in the model, oldest records beyond the capacity are
dropped). -/
def pushUndo (st : List URec) (r : URec) : List URec :=
  (r :: st).take MAX_UNDO_STEPS

/-- `_closest_point_on_rect(x1, y1, x2, y2, px, py)`: intersection of the
ray from the box centre towards `(px, py)` with the boundary.  The float
`inf` entries of `t_values` are modelled by `none`; Python keeps them in the
`> 0` filter and `min` prefers any finite value, so a `none` minimum can
only occur when both direction components are below `1e-6`, which the early
return excludes; that unreachable branch returns the centre. -/
def closestPointOnRect (x1 y1 x2 y2 px py : ℚ) : Pt :=
  let cx := (x1 + x2) / 2
  let cy := (y1 + y2) / 2
  let dx := px - cx
  let dy := py - cy
  if |dx| < 1 / 1000000 ∧ |dy| < 1 / 1000000 then (x1, cy)
  else
    let halfW := (x2 - x1) / 2
    let halfH := (y2 - y1) / 2
    let tx : List (Option ℚ) :=
      if |dx| > 1 / 1000000 then [some (-halfW / dx), some (halfW / dx)] else [none, none]
    let ty : List (Option ℚ) :=
      if |dy| > 1 / 1000000 then [some (-halfH / dy), some (halfH / dy)] else [none, none]
    let tvals := (tx ++ ty).filter (fun t => match t with | none => true | some v => decide (0 < v))
    match tvals.foldl
        (fun best t => match best, t with
          | none, t => t
          | some b, none => some b
          | some b, some v => some (min b v)) none with
    | some t =>
      let bx := max x1 (min x2 (cx + dx * t))
      let bY := max y1 (min y2 (cy + dy * t))
      (bx, bY)
    | none => (cx, cy)

/-- `_closest_point_on_polygon_edge(polygon, px, py)`: nearest boundary
point by projection onto each edge (fallback when the ray casting fails).
Python `min`-like update keeps the first minimum. -/
def closestPointOnPolygonEdge (poly : List ℚ) (px py : ℚ) : Pt :=
  let n := poly.length / 2
  if n < 2 then (if n ≥ 1 then (poly.getD 0 0, poly.getD 1 0) else (px, py))
  else
    let best := (polygonToEdges poly).foldl
      (fun (best : Option (Pt × ℚ)) e =>
        let ex := e.2.1 - e.1.1
        let ey := e.2.2 - e.1.2
        let lsq := ex * ex + ey * ey
        let proj : Pt :=
          if lsq < eps9 then e.1
          else
            let t := max 0 (min 1 (((px - e.1.1) * ex + (py - e.1.2) * ey) / lsq))
            (e.1.1 + t * ex, e.1.2 + t * ey)
        let dsq := (px - proj.1) ^ 2 + (py - proj.2) ^ 2
        match best with
        | none => some (proj, dsq)
        | some b => if dsq < b.2 then some (proj, dsq) else some b)
      none
    match best with
    | some b => b.1
    | none => (px, py)

/-- `_closest_point_on_polygon(polygon, cx, cy, px, py)`: the first boundary
intersection of the ray from `(cx, cy)` towards `(px, py)` (smallest
`t > 0`; `0 ≤ s ≤ 1` on the edge), with the projection helper as
fallback. -/
def closestPointOnPolygon (poly : List ℚ) (cx cy px py : ℚ) : Pt :=
  let n := poly.length / 2
  if n < 3 then (cx, cy)
  else
    let dx := px - cx
    let dy := py - cy
    if |dx| < 1 / 1000000 ∧ |dy| < 1 / 1000000 then (poly.getD 0 0, poly.getD 1 0)
    else
      let best := (polygonToEdges poly).foldl
        (fun (best : Option (Pt × ℚ)) e =>
          let ex := e.2.1 - e.1.1
          let ey := e.2.2 - e.1.2
          let denom := dx * ey - dy * ex
          if |denom| < eps9 then best
          else
            let t := ((e.1.1 - cx) * ey - (e.1.2 - cy) * ex) / denom
            let sParam := ((e.1.1 - cx) * dy - (e.1.2 - cy) * dx) / denom
            if 0 < t ∧ 0 ≤ sParam ∧ sParam ≤ 1 then
              match best with
              | none => some ((cx + t * dx, cy + t * dy), t)
              | some b => if t < b.2 then some ((cx + t * dx, cy + t * dy), t) else some b
            else best)
        none
      match best with
      | some b => b.1
      | none => closestPointOnPolygonEdge poly px py

/-- `_closest_point_on_circle(cx, cy, radius, px, py)`.  The only branch of
the model whose value needs the square-root oracle `rt` (for the distance
`sqrt (dx² + dy²)`); the degeneracy test `dist < 1e-6` is the exact test
`dx² + dy² < 1e-12`. -/
def closestPointOnCircle (rt : ℚ → ℚ) (cx cy radius px py : ℚ) : Pt :=
  let dx := px - cx
  let dy := py - cy
  if dx * dx + dy * dy < 1 / 1000000000000 then (cx + radius, cy)
  else
    let dist := rt (dx * dx + dy * dy)
    (cx + dx / dist * radius, cy + dy / dist * radius)

/-- `get_connection_point(node_id, target_x, target_y)` given the node
record (`self.nodes[node_id]`; callers of the model perform the lookup).
Priority: segmentation polygon, then bbox, then the connector circle of
radius `sqrt (area / 3.14159)` (via the oracle `rt`). -/
def getConnectionPointN (rt : ℚ → ℚ) (node : NodeR) (tx ty : ℚ) : Pt :=
  let cx := node.centroid.2
  let cy := node.centroid.1
  let viaCircle : Pt :=
    let area := node.area.getD 225
    let radius := rt (area / (314159 / 100000))
    closestPointOnCircle rt cx cy radius tx ty
  if node.ntype = "equipment" then
    match node.segmentation with
    | some seg =>
      if 6 ≤ seg.length then closestPointOnPolygon seg cx cy tx ty
      else match node.bbox with
        | some b => closestPointOnRect b.x1 b.y1 b.x2 b.y2 tx ty
        | none => viaCircle
    | none =>
      match node.bbox with
      | some b => closestPointOnRect b.x1 b.y1 b.x2 b.y2 tx ty
      | none => viaCircle
  else viaCircle

/-- `get_connection_point` with the dict lookup; the source raises
`KeyError` for a missing id, which no embedded caller can reach (they all
look the node up first or create it), so the model returns the origin
there. -/
def getConnectionPoint (rt : ℚ → ℚ) (s : EState) (id : String) (tx ty : ℚ) : Pt :=
  match lookupNode s id with
  | some node => getConnectionPointN rt node tx ty
  | none => (0, 0)

/-- `src_poly and isinstance(src_poly, list) and len(src_poly) >= 6`:
the usable polygon of a node, if any. -/
def getPoly (n : NodeR) : Option (List ℚ) :=
  match n.segmentation with
  | some l => if 6 ≤ l.length then some l else none
  | none => none

/-- `src_has_poly` of the dispatch code. -/
def hasPoly (n : NodeR) : Bool := (getPoly n).isSome

/-- `src_is_point = src_type == 'connector' and not src_has_bbox and not
src_has_poly`. -/
def isPointN (n : NodeR) : Bool :=
  n.ntype == "connector" && !n.bbox.isSome && !hasPoly n

/-- The shape dispatch of `add_edge` (no axis lock), returning the contact
pair `((src_x, src_y), (tgt_x, tgt_y))` and the connection type, or `none`
when no case fires and the caller falls back to `get_connection_point`. -/
def addEdgeDispatch (src tgt : NodeR) : Option (Pt × Pt × String) :=
  let sc : Pt := (src.centroid.2, src.centroid.1)
  let tc : Pt := (tgt.centroid.2, tgt.centroid.1)
  if isPointN src ∧ isPointN tgt then some (sc, tc, "point_point")
  else if isPointN src then
    match getPoly tgt with
    | some poly => let r := connectPointPolygon sc poly none; some (r.1, r.2.1, "point_poly")
    | none =>
      match tgt.bbox with
      | some bb => let r := connectPointBbox sc bb none; some (r.1, r.2.1, r.2.2)
      | none => some (sc, tc, "point_point_fallback")
  else if isPointN tgt then
    match getPoly src with
    | some poly => let r := connectPointPolygon tc poly none; some (r.2.1, r.1, "poly_point")
    | none =>
      match src.bbox with
      | some sb =>
        let r := connectPointBbox tc sb none
        some (r.2.1, r.1, (r.2.2).replace "point_bbox" "bbox_point")
      | none => some (sc, tc, "point_point_fallback")
  else
    match src.bbox, tgt.bbox, getPoly src, getPoly tgt with
    | some sb, some tb, none, none =>
      let r := connectBboxBbox sb tb none; some (r.1, r.2.1, r.2.2)
    | some sb, _, _, some tp =>
      let r := connectBboxPolygon sb tp none; some (r.1, r.2.1, "bbox_poly")
    | _, some tb, some sp, _ =>
      let r := connectBboxPolygon tb sp none; some (r.2.1, r.1, "poly_bbox")
    | _, _, some sp, some tp =>
      let r := connectPolygonPolygon sp tp none; some (r.1, r.2.1, "poly_poly")
    | _, _, _, _ => none
    -- the source's final `elif src_has_bbox and tgt_has_bbox` branch is
    -- unreachable (every such shape pair is caught above) and Lean rejects
    -- the redundant alternative; it is omitted.

/-- The shape dispatch of `optimize_edge`: the same case chain as
`add_edge` but with the derived `required_axis`, and with no
centroid sub-fallbacks in the single-point cases (the source has no `else`
there, leaving `src_x` as `None`). -/
def optimizeDispatch (src tgt : NodeR) (ra : Option Axis) : Option (Pt × Pt) :=
  let sc : Pt := (src.centroid.2, src.centroid.1)
  let tc : Pt := (tgt.centroid.2, tgt.centroid.1)
  if isPointN src ∧ isPointN tgt then some (sc, tc)
  else if isPointN src then
    match getPoly tgt with
    | some poly => let r := connectPointPolygon sc poly ra; some (r.1, r.2.1)
    | none =>
      match tgt.bbox with
      | some bb => let r := connectPointBbox sc bb ra; some (r.1, r.2.1)
      | none => none
  else if isPointN tgt then
    match getPoly src with
    | some poly => let r := connectPointPolygon tc poly ra; some (r.2.1, r.1)
    | none =>
      match src.bbox with
      | some sb => let r := connectPointBbox tc sb ra; some (r.2.1, r.1)
      | none => none
  else
    match src.bbox, tgt.bbox, getPoly src, getPoly tgt with
    | some sb, some tb, none, none => let r := connectBboxBbox sb tb ra; some (r.1, r.2.1)
    | some sb, _, _, some tp => let r := connectBboxPolygon sb tp ra; some (r.1, r.2.1)
    | _, some tb, some sp, _ => let r := connectBboxPolygon tb sp ra; some (r.2.1, r.1)
    | _, _, some sp, some tp => let r := connectPolygonPolygon sp tp ra; some (r.1, r.2.1)
    | _, _, _, _ => none
    -- as in `addEdgeDispatch`, the source's final unreachable
    -- `elif src_has_bbox and tgt_has_bbox` branch is omitted.

/-- `_create_edge_with_points(node_a, node_b, source_point, target_point)`:
adds the key, computes any missing contact with `get_connection_point`
towards the other node's centroid, and appends the record (which carries no
`connection_type`). -/
def createEdgeWithPoints (rt : ℚ → ℚ) (s : EState) (na nb : String)
    (sp tp : Option (ℚ × ℚ)) : EState :=
  let k := edgeKey na nb
  let sp' : ℚ × ℚ :=
    match sp with
    | some p => p
    | none =>
      match lookupNode s nb with
      | some tgtn =>
        let q := getConnectionPoint rt s na tgtn.centroid.2 tgtn.centroid.1
        (q.2, q.1)
      | none => (0, 0)
  let tp' : ℚ × ℚ :=
    match tp with
    | some p => p
    | none =>
      match lookupNode s na with
      | some srcn =>
        let q := getConnectionPoint rt s nb srcn.centroid.2 srcn.centroid.1
        (q.2, q.1)
      | none => (0, 0)
  { s with edges := edgesAdd s.edges k,
           edgesData := s.edgesData ++ [⟨na, nb, some sp', some tp', none⟩] }

/-- The outcome of `add_edge(node_a, node_b)`: the typed rejections return
`False` with the state unchanged; `keyErr` models the uncaught Python
`KeyError` raised by `self.nodes[node_a]` for a missing id — it carries the
state as mutated up to the raise (the edge key has already been added). -/
inductive AddEdgeRes where
  | selfLoop (s : EState)
  | duplicate (s : EState)
  | keyErr (s : EState)
  | ok (s : EState)
deriving DecidableEq, Repr

/-- The model state carried by an `add_edge` outcome. -/
def AddEdgeRes.state : AddEdgeRes → EState
  | .selfLoop s => s
  | .duplicate s => s
  | .keyErr s => s
  | .ok s => s

/-- `add_edge(node_a, node_b)`.  Order of effects as in the source:
self-loop check, duplicate check, `self.edges.add(key)`, node lookups
(raising for a missing id), contact computation, record append, undo
push. -/
def addEdge (rt : ℚ → ℚ) (s : EState) (na nb : String) : AddEdgeRes :=
  if na = nb then .selfLoop s
  else
    let k := edgeKey na nb
    if k ∈ s.edges then .duplicate s
    else
      let s1 := { s with edges := edgesAdd s.edges k }
      match lookupNode s1 na, lookupNode s1 nb with
      | some src, some tgt =>
        let r : (Pt × Pt) × String :=
          match addEdgeDispatch src tgt with
          | some d => ((d.1, d.2.1), d.2.2)
          | none =>
            ((getConnectionPoint rt s1 na tgt.centroid.2 tgt.centroid.1,
              getConnectionPoint rt s1 nb src.centroid.2 src.centroid.1),
             "centroid_fallback")
        let e : EdgeR := ⟨na, nb, some (r.1.1.2, r.1.1.1), some (r.1.2.2, r.1.2.1), some r.2⟩
        .ok { s1 with edgesData := s1.edgesData ++ [e],
                      undoStack := pushUndo s1.undoStack (.addEdge na nb e) }
      | _, _ => .keyErr s1

/-- `remove_edge(node_a, node_b)`: `(returned bool, resulting state)`. -/
def removeEdge (s : EState) (na nb : String) : Bool × EState :=
  let k := edgeKey na nb
  if k ∉ s.edges then (false, s)
  else
    let removed := findEdgeRecord s.edgesData k
    (true, { s with
      edges := s.edges.filter (fun kk => kk ≠ k),
      edgesData := eraseFirstP s.edgesData (fun e => edgeKey e.source e.target == k),
      undoStack := pushUndo s.undoStack (.removeEdge na nb removed) })

/-- `add_connector_on_edge(edge_key, pos_x, pos_y)`: split the edge with a
new manual connector; `none` when the key is absent, otherwise the new state
and the id of the connector. -/
def addConnectorOnEdge (rt : ℚ → ℚ) (s : EState) (k : String × String)
    (px py : ℚ) : Option (EState × String) :=
  if k ∉ s.edges then none
  else
    let na := k.1
    let nb := k.2
    let old := findEdgeRecord s.edgesData k
    let ed1 := eraseFirstP s.edgesData (fun e => edgeKey e.source e.target == k)
    let opa : Option (ℚ × ℚ) :=
      match old with
      | some o => if o.source = na then o.sourcePoint else o.targetPoint
      | none => none
    let opb : Option (ℚ × ℚ) :=
      match old with
      | some o => if o.source = na then o.targetPoint else o.sourcePoint
      | none => none
    let cNew := s.manualCounter + 1
    let nid := "node_manual_" ++ toString cNew
    let newNode : NodeR := ⟨nid, "connector", (py, px), some 225, none, none, true⟩
    let s1 : EState := { s with
      nodes := insertNode s.nodes newNode,
      edges := s.edges.filter (fun kk => kk ≠ k),
      edgesData := ed1,
      manualCounter := cNew }
    let s2 := createEdgeWithPoints rt s1 na nid opa (some (py, px))
    let s3 := createEdgeWithPoints rt s2 nid nb (some (py, px)) opb
    some ({ s3 with undoStack := pushUndo s3.undoStack (.addConnectorOnEdge nid na nb old) }, nid)

/-- `add_connector_isolated(pos_x, pos_y)`: returns the new state and the
new node id. -/
def addConnectorIsolated (s : EState) (px py : ℚ) : EState × String :=
  let cNew := s.manualCounter + 1
  let nid := "node_manual_" ++ toString cNew
  let newNode : NodeR := ⟨nid, "connector", (py, px), some 225, none, none, true⟩
  ({ s with
      nodes := insertNode s.nodes newNode,
      manualCounter := cNew,
      undoStack := pushUndo s.undoStack (.addConnectorIsolated nid) }, nid)

/-- The keys of the edges incident to `id` (`node_id in key` over
`self.edges`). -/
def connectedKeysOf (s : EState) (id : String) : List (String × String) :=
  s.edges.filter (fun k => k.1 == id || k.2 == id)

/-- The neighbor at the other end of each incident key
(`key[0] if key[1] == node_id else key[1]`). -/
def neighborsOf (s : EState) (id : String) : List String :=
  (connectedKeysOf s id).map (fun k => if k.2 == id then k.1 else k.2)

/-- `delete_node(node_id)`: `(returned bool, resulting state)`.  A
`Connector` of degree exactly two is merged: the two incident edges are
removed and one edge between the two neighbors is created through
`_create_edge_with_points(n1, n2, None, None)`, whose contacts come from
`get_connection_point`; the undo record keeps the *first* `edges_data`
record carrying the merge key. -/
def deleteNode (rt : ℚ → ℚ) (s : EState) (id : String) : Bool × EState :=
  match lookupNode s id with
  | none => (false, s)
  | some node =>
    let connected := connectedKeysOf s id
    let neighbors := neighborsOf s id
    let backup := connected.filterMap (fun k => findEdgeRecord s.edgesData k)
    let shouldMerge := node.ntype == "connector" && neighbors.length == 2
    let s1 : EState := { s with
      nodes := s.nodes.filter (fun n => n.id ≠ id),
      edges := s.edges.filter (fun k => k ∉ connected),
      edgesData := s.edgesData.filter (fun e => edgeKey e.source e.target ∉ connected) }
    let merged : EState × Option EdgeR :=
      if shouldMerge then
        match neighbors with
        | [n1, n2] =>
          let s' := createEdgeWithPoints rt s1 n1 n2 none none
          (s', findEdgeRecord s'.edgesData (edgeKey n1 n2))
        | _ => (s1, none)
      else (s1, none)
    let s2 := merged.1
    let rec0 := URec.deleteNode id node backup (if shouldMerge then neighbors else []) merged.2
    (true, { s2 with undoStack := pushUndo s2.undoStack rec0 })

/-- `optimize_edge(node_a, node_b)`: recompute the contacts under the axis
lock derived from the current contact vector
(`global_axis_perpendicularity(old_dx, old_dy)`), update the record, the
perpendicularity map and the undo journal.  The node lookups of the source
raise `KeyError` when an endpoint id is missing, which cannot happen when
every edge endpoint exists; that branch returns the state unchanged. -/
def optimizeEdge (rt : ℚ → ℚ) (s : EState) (na nb : String) : Bool × EState :=
  let k := edgeKey na nb
  if k ∉ s.edges then (false, s)
  else
    match findEdgeRecord s.edgesData k with
    | none => (false, s)
    | some ed =>
      let osp := ed.sourcePoint
      let otp := ed.targetPoint
      let ra : Option Axis :=
        match osp, otp with
        | some sp, some tp => some (globalAxisPerpendicularity (tp.2 - sp.2) (tp.1 - sp.1)).2
        | _, _ => none
      match lookupNode s ed.source, lookupNode s ed.target with
      | some src, some tgt =>
        let c : Pt × Pt :=
          match optimizeDispatch src tgt ra with
          | some r => r
          | none =>
            (getConnectionPoint rt s ed.source tgt.centroid.2 tgt.centroid.1,
             getConnectionPoint rt s ed.target src.centroid.2 src.centroid.1)
        let edd := updateFirstRecord s.edgesData k
          (fun e => { e with sourcePoint := some (c.1.2, c.1.1), targetPoint := some (c.2.2, c.2.1) })
        let perp := computeEdgePerpendicularity c.1 c.2
        (true, { s with edgesData := edd,
                        perpScores := perpSet s.perpScores k perp,
                        undoStack := pushUndo s.undoStack (.optimizeEdge ed.source ed.target osp otp) })
      | _, _ => (false, s)

/-- The per-edge contact recomputation of `drag_node_to`: dispatch over the
two endpoint nodes with *no* axis lock, treating every `connector`-typed
node as a point regardless of its geometry, with the final
`if src_x is None` centroid fallback built in. -/
def dragNewPoints (src tgt : NodeR) : Pt × Pt :=
  let sc : Pt := (src.centroid.2, src.centroid.1)
  let tc : Pt := (tgt.centroid.2, tgt.centroid.1)
  let r : Option (Pt × Pt) :=
    if src.ntype == "connector" ∧ tgt.ntype == "connector" then some (sc, tc)
    else if src.ntype == "connector" then
      match getPoly tgt with
      | some poly => let r := connectPointPolygon sc poly none; some (r.1, r.2.1)
      | none =>
        match tgt.bbox with
        | some bb => let r := connectPointBbox sc bb none; some (r.1, r.2.1)
        | none => some (sc, tc)
    else if tgt.ntype == "connector" then
      match getPoly src with
      | some poly => let r := connectPointPolygon tc poly none; some (r.2.1, r.1)
      | none =>
        match src.bbox with
        | some sb => let r := connectPointBbox tc sb none; some (r.2.1, r.1)
        | none => some (sc, tc)
    else
      match getPoly src, getPoly tgt, src.bbox, tgt.bbox with
      | some sp, some tpo, _, _ => let r := connectPolygonPolygon sp tpo none; some (r.1, r.2.1)
      | some sp, none, _, some tb => let r := connectBboxPolygon tb sp none; some (r.2.1, r.1)
      | none, some tpo, some sb, _ => let r := connectBboxPolygon sb tpo none; some (r.1, r.2.1)
      | none, none, some sb, some tb => let r := connectBboxBbox sb tb none; some (r.1, r.2.1)
      | _, _, _, _ => none
  match r with
  | some p => p
  | none => (sc, tc)

/-- The per-record contact update of the `drag_node_to` loop, over the
post-move node list.  Records not incident to the dragged node are left
alone; the node lookups of the source raise `KeyError` for a missing
endpoint, unreachable when every edge endpoint exists (those arms keep the
record). -/
def dragUpdateEdge (nodes1 : List NodeR) (id : String) (e : EdgeR) : EdgeR :=
  if e.source ≠ id ∧ e.target ≠ id then e
  else
    match lookupIn nodes1 e.source, lookupIn nodes1 e.target with
    | some src, some tgt =>
      let c := dragNewPoints src tgt
      { e with sourcePoint := some (c.1.2, c.1.1), targetPoint := some (c.2.2, c.2.1) }
    | _, _ => e

/-- The perpendicularity-map update of the same loop. -/
def dragUpdatePerp (nodes1 : List NodeR) (id : String)
    (acc : List ((String × String) × PerpInfo)) (e : EdgeR) :
    List ((String × String) × PerpInfo) :=
  if e.source ≠ id ∧ e.target ≠ id then acc
  else
    match lookupIn nodes1 e.source, lookupIn nodes1 e.target with
    | some src, some tgt =>
      let c := dragNewPoints src tgt
      perpSet acc (edgeKey e.source e.target) (computeEdgePerpendicularity c.1 c.2)
    | _, _ => acc

/-- `drag_node_to(x, y)` for the dragging node `id`: set the centroid to
`[y, x]` (the shape data — bbox and segmentation — is not touched), then
recompute both contacts of every incident edge record and its
perpendicularity entry.  `none` models the `KeyError` of
`self.nodes[node_id]` for a missing id, unreachable via `start_drag_node`. -/
def dragNodeTo (s : EState) (id : String) (x y : ℚ) : Option EState :=
  match lookupNode s id with
  | none => none
  | some nd =>
    let nd' := { nd with centroid := (y, x) }
    let nodes1 := s.nodes.map (fun n => if n.id == id then nd' else n)
    some { s with
      nodes := nodes1,
      edgesData := s.edgesData.map (dragUpdateEdge nodes1 id),
      perpScores := s.edgesData.foldl (dragUpdatePerp nodes1 id) s.perpScores }

/-- `get_perpendicularity_stats()` over the values of the perpendicularity
map: `(total, good, bad)`.  The `avg_score` entry sums irrational score
values and is display-only; it is omitted from the model. -/
def getPerpendicularityStats (l : List PerpInfo) : ℕ × ℕ × ℕ :=
  let total := l.length
  let good := l.countP (fun i => i.isGood)
  (total, good, total - good)

/-- `undo()`: pop the newest record and reverse it; with an empty journal
the state is unchanged. -/
def undo (s : EState) : EState :=
  match s.undoStack with
  | [] => s
  | r :: rest =>
    let s0 : EState := { s with undoStack := rest }
    match r with
    | .addEdge na nb ed =>
      let k := edgeKey na nb
      { s0 with edges := s0.edges.filter (fun kk => kk ≠ k),
                edgesData := if ed ∈ s0.edgesData then eraseFirstVal s0.edgesData ed
                             else s0.edgesData }
    | .removeEdge na nb edOpt =>
      let k := edgeKey na nb
      let ed1 := match edOpt with
        | some e => s0.edgesData ++ [e]
        | none => s0.edgesData
      { s0 with edges := edgesAdd s0.edges k, edgesData := ed1 }
    | .addConnectorOnEdge nid na nb oldOpt =>
      let k1 := edgeKey nid na
      let k2 := edgeKey nid nb
      let edges1 := (s0.edges.filter (fun kk => kk ≠ k1)).filter (fun kk => kk ≠ k2)
      let ed1 := (s0.edgesData.filter (fun e => edgeKey e.source e.target ≠ k1)).filter
        (fun e => edgeKey e.source e.target ≠ k2)
      let nodes1 := s0.nodes.filter (fun n => n.id ≠ nid)
      match oldOpt with
      | some old =>
        { s0 with nodes := nodes1,
                  edges := edgesAdd edges1 (edgeKey na nb),
                  edgesData := ed1 ++ [old] }
      | none => { s0 with nodes := nodes1, edges := edges1, edgesData := ed1 }
    | .addConnectorIsolated nid =>
      { s0 with nodes := s0.nodes.filter (fun n => n.id ≠ nid) }
    | .deleteNode _nid nodeB backup mergedNeighbors newEdgeOpt =>
      let s1 : EState :=
        if mergedNeighbors.length = 2 ∧ newEdgeOpt.isSome then
          match mergedNeighbors with
          | [n1, n2] =>
            let k := edgeKey n1 n2
            { s0 with edges := s0.edges.filter (fun kk => kk ≠ k),
                      edgesData := s0.edgesData.filter (fun e => edgeKey e.source e.target ≠ k) }
          | _ => s0
        else s0
      let s2 : EState := { s1 with nodes := insertNode s1.nodes nodeB }
      backup.foldl
        (fun acc e =>
          { acc with edges := edgesAdd acc.edges (edgeKey e.source e.target),
                     edgesData := acc.edgesData ++ [e] }) s2
    | .optimizeEdge na nb ospOpt otpOpt =>
      let k := edgeKey na nb
      let ed1 := updateFirstRecord s0.edgesData k (fun e =>
        let e1 := match ospOpt with | some p => { e with sourcePoint := some p } | none => e
        match otpOpt with | some p => { e1 with targetPoint := some p } | none => e1)
      let pts : Pt × Pt :=
        match ospOpt, otpOpt with
        | some sp, some tp => ((sp.2, sp.1), (tp.2, tp.1))
        | _, _ =>
          let ca : Pt := match lookupNode s0 na with
            | some n => (n.centroid.2, n.centroid.1)
            | none => (0, 0)
          let cb : Pt := match lookupNode s0 nb with
            | some n => (n.centroid.2, n.centroid.1)
            | none => (0, 0)
          (ca, cb)
      let perp := computeEdgePerpendicularity pts.1 pts.2
      { s0 with edgesData := ed1, perpScores := perpSet s0.perpScores k perp }
    | .dragNode nid oldCentroid oldPoints =>
      match lookupNode s0 nid with
      | none => s0
      | some nd =>
        let nd' := { nd with centroid := oldCentroid }
        let s1 : EState := { s0 with nodes := s0.nodes.map (fun n => if n.id == nid then nd' else n) }
        oldPoints.foldl
          (fun acc entry =>
            let k := edgeKey entry.1.1 entry.1.2
            let spO := entry.2.1
            let tpO := entry.2.2
            let ed1 := updateFirstRecord acc.edgesData k (fun e =>
              let e1 := match spO with | some p => { e with sourcePoint := some p } | none => e
              match tpO with | some p => { e1 with targetPoint := some p } | none => e1)
            match spO, tpO with
            | some sp, some tp =>
              let perp := computeEdgePerpendicularity (sp.2, sp.1) (tp.2, tp.1)
              { acc with edgesData := ed1, perpScores := perpSet acc.perpScores k perp }
            | _, _ => { acc with edgesData := ed1 }) s1

/-! Helper lemmas about the selection and list operations of the model. -/

/-- The non-strict lexicographic `(priority, distance)` order on
candidates. -/
def keyLe (c d : Cand) : Prop :=
  c.prio < d.prio ∨ (c.prio = d.prio ∧ c.dist ≤ d.dist)

theorem keyLe_refl (c : Cand) : keyLe c c := Or.inr ⟨rfl, le_refl _⟩

theorem keyLe_trans {a b c : Cand} (h1 : keyLe a b) (h2 : keyLe b c) : keyLe a c := by
  rcases h1 with h1 | ⟨h1, h1d⟩ <;> rcases h2 with h2 | ⟨h2, h2d⟩
  · exact Or.inl (h1.trans h2)
  · exact Or.inl (h2 ▸ h1)
  · exact Or.inl (h1 ▸ h2)
  · exact Or.inr ⟨h1.trans h2, h1d.trans h2d⟩

theorem pickCand_eq_or (b d : Cand) : pickCand b d = b ∨ pickCand b d = d := by
  unfold pickCand; split
  · exact Or.inr rfl
  · exact Or.inl rfl

theorem keyLe_pickCand_left (b d : Cand) : keyLe (pickCand b d) b := by
  unfold pickCand; split
  · next h =>
    rcases h with h | ⟨h, hd⟩
    · exact Or.inl h
    · exact Or.inr ⟨h, le_of_lt hd⟩
  · exact keyLe_refl b

theorem keyLe_pickCand_right (b d : Cand) : keyLe (pickCand b d) d := by
  unfold pickCand; split
  · exact keyLe_refl d
  · next hn =>
    push_neg at hn
    rcases Nat.lt_trichotomy b.prio d.prio with h1 | h1 | h1
    · exact Or.inl h1
    · exact Or.inr ⟨h1, hn.2 h1.symm⟩
    · exact absurd h1 (not_lt_of_le hn.1)

theorem foldl_pickCand_mem : ∀ (t : List Cand) (b : Cand), t.foldl pickCand b ∈ b :: t := by
  intro t
  induction t with
  | nil => intro b; simp
  | cons h t ih =>
    intro b
    have := ih (pickCand b h)
    rcases pickCand_eq_or b h with he | he <;>
      simp only [List.foldl_cons] <;> rw [he] at this ⊢ <;>
      rcases List.mem_cons.1 this with h1 | h1 <;> simp [h1]

theorem foldl_pickCand_le : ∀ (t : List Cand) (b : Cand),
    keyLe (t.foldl pickCand b) b ∧ ∀ d ∈ t, keyLe (t.foldl pickCand b) d := by
  intro t
  induction t with
  | nil => intro b; exact ⟨keyLe_refl b, by simp⟩
  | cons h t ih =>
    intro b
    obtain ⟨ih1, ih2⟩ := ih (pickCand b h)
    constructor
    · exact keyLe_trans ih1 (keyLe_pickCand_left b h)
    · intro d hd
      rcases List.mem_cons.1 hd with rfl | hd
      · exact keyLe_trans ih1 (keyLe_pickCand_right b d)
      · exact ih2 d hd

/-- The selected candidate is a member of the list and minimizes the
`(priority, distance)` key. -/
theorem chooseBestC_spec {l : List Cand} {c : Cand} (h : chooseBestC l = some c) :
    c ∈ l ∧ ∀ d ∈ l, keyLe c d := by
  match l with
  | [] => simp [chooseBestC] at h
  | b :: t =>
    simp only [chooseBestC, Option.some.injEq] at h
    subst h
    refine ⟨foldl_pickCand_mem t b, ?_⟩
    intro d hd
    obtain ⟨h1, h2⟩ := foldl_pickCand_le t b
    rcases List.mem_cons.1 hd with rfl | hd
    · exact h1
    · exact h2 d hd

theorem keyLe_prio {c d : Cand} (h : keyLe c d) : c.prio ≤ d.prio := by
  rcases h with h | ⟨h, _⟩
  · exact le_of_lt h
  · exact le_of_eq h

theorem keyLe_dist {c d : Cand} (h : keyLe c d) (hp : d.prio = c.prio) : c.dist ≤ d.dist := by
  rcases h with h | ⟨_, hd⟩
  · omega
  · exact hd

/-- Every priority-1–3 candidate of `connect_bbox_bbox` is exactly
axis-aligned: both contacts share the x or the y coordinate. -/
theorem bboxCandidates_aligned (a b : BBoxQ) (ra : Option Axis) :
    ∀ c ∈ bboxCandidates a b ra, c.pa.1 = c.pb.1 ∨ c.pa.2 = c.pb.2 := by
  intro c hc
  simp only [bboxCandidates, List.mem_append] at hc
  rcases hc with ((((hc | hc) | hc) | hc) | hc) | hc <;>
  · repeat' split at hc
    all_goals simp_all

/-- Elements removed by `eraseFirstP` come from the original list. -/
theorem eraseFirstP_subset : ∀ (l : List EdgeR) (p : EdgeR → Bool) (x : EdgeR),
    x ∈ eraseFirstP l p → x ∈ l := by
  intro l
  induction l with
  | nil => intro p x h; simp [eraseFirstP] at h
  | cons e es ih =>
    intro p x h
    simp only [eraseFirstP] at h
    split at h
    · exact List.mem_cons_of_mem e h
    · rcases List.mem_cons.1 h with rfl | h
      · exact List.mem_cons_self x es
      · exact List.mem_cons_of_mem e (ih p x h)

theorem lookupNode_map_replace (l : List NodeR) (id : String) (nd nd' : NodeR)
    (h : l.find? (fun n => n.id == id) = some nd) (hid : nd'.id = nd.id) :
    (l.map (fun n => if n.id == id then nd' else n)).find? (fun n => n.id == id) = some nd' := by
  induction l with
  | nil => simp at h
  | cons a t ih =>
    by_cases ha : a.id = id
    · have hfa : ((fun (n : NodeR) => n.id == id) a) = true := by simp [ha]
      rw [@List.find?_cons_of_pos NodeR (fun n => n.id == id) a t hfa] at h
      have hnd : a = nd := by simpa using h
      have hok : nd'.id = id := by rw [hid, ← hnd, ha]
      simp only [List.map_cons, if_pos hfa]
      exact @List.find?_cons_of_pos NodeR (fun n => n.id == id) nd' _ (by simp [hok])
    · have hfa : ((fun (n : NodeR) => n.id == id) a) = false := by simp [ha]
      rw [@List.find?_cons_of_neg NodeR (fun n => n.id == id) a t (by simp [ha])] at h
      simp only [List.map_cons, hfa, Bool.false_eq_true, if_false]
      rw [@List.find?_cons_of_neg NodeR (fun n => n.id == id) a _ (by simp [ha])]
      exact ih h

/-- `edge_key` equality forces the unordered pairs to coincide. -/
theorem edgeKey_eq_cases {a b c d : String} (h : edgeKey a b = edgeKey c d) :
    (a = c ∧ b = d) ∨ (a = d ∧ b = c) := by
  unfold edgeKey at h
  split at h <;> split at h <;>
    simp only [Prod.mk.injEq] at h <;> tauto

/-- A fold whose step preserves the manual counter preserves it overall. -/
theorem foldl_preserves_counter {α : Type} (f : EState → α → EState)
    (hf : ∀ acc e, (f acc e).manualCounter = acc.manualCounter) :
    ∀ (l : List α) (acc : EState), (l.foldl f acc).manualCounter = acc.manualCounter := by
  intro l
  induction l with
  | nil => intro acc; rfl
  | cons e t ih => intro acc; rw [List.foldl_cons, ih, hf]

/-- The score of `compute_edge_perpendicularity` is the first component of
`global_axis_perpendicularity` of the contact vector. -/
theorem computeEdgePerp_score_eq (p q : Pt) :
    (computeEdgePerpendicularity p q).score =
      (globalAxisPerpendicularity (q.1 - p.1) (q.2 - p.2)).1 := by
  unfold computeEdgePerpendicularity
  rcases hg : globalAxisPerpendicularity (q.1 - p.1) (q.2 - p.2) with ⟨sc, ax⟩
  simp [hg]

/-- `is_good` of `compute_edge_perpendicularity` is the threshold test on
that score. -/
theorem computeEdgePerp_isGood_eq (p q : Pt) :
    (computeEdgePerpendicularity p q).isGood =
      scoreGeQ (globalAxisPerpendicularity (q.1 - p.1) (q.2 - p.2)).1
        PERPENDICULARITY_THRESHOLD := by
  unfold computeEdgePerpendicularity
  rcases hg : globalAxisPerpendicularity (q.1 - p.1) (q.2 - p.2) with ⟨sc, ax⟩
  simp [hg]

theorem globalAxis_nonneg (dx dy : ℚ) :
    0 ≤ (globalAxisPerpendicularity dx dy).1.m ∧
    0 ≤ (globalAxisPerpendicularity dx dy).1.s := by
  dsimp only [globalAxisPerpendicularity]
  split_ifs <;>
    exact ⟨by dsimp only; positivity,
      by dsimp only; nlinarith [mul_self_nonneg dx, mul_self_nonneg dy]⟩

theorem globalAxis_m_zero {dx dy : ℚ} (h : dx = 0 ∨ dy = 0) :
    (globalAxisPerpendicularity dx dy).1.m = 0 := by
  dsimp only [globalAxisPerpendicularity]
  split_ifs with h1 h2
  · rfl
  · rcases h with h | h
    · have : |dy| ≤ 0 := by simpa [h] using h2
      simpa using le_antisymm this (abs_nonneg dy)
    · simp [h]
  · rcases h with h | h
    · simp [h]
    · exact absurd (by simp [h, abs_nonneg]) h2

/-- Both components of a score produced by `compute_edge_perpendicularity`
are nonnegative (`m = min(|dx|, |dy|)` or `0`; `s = dx² + dy²` or `1`). -/
theorem perpScore_nonneg (p q : Pt) :
    0 ≤ (computeEdgePerpendicularity p q).score.m ∧
    0 ≤ (computeEdgePerpendicularity p q).score.s := by
  rw [computeEdgePerp_score_eq]
  exact globalAxis_nonneg _ _

/-- An exactly axis-aligned contact pair scores `m = 0`, i.e. the score is
exactly `1`. -/
theorem aligned_score_m_zero (p q : Pt) (h : p.1 = q.1 ∨ p.2 = q.2) :
    (computeEdgePerpendicularity p q).score.m = 0 := by
  rw [computeEdgePerp_score_eq]
  apply globalAxis_m_zero
  rcases h with h | h
  · exact Or.inl (by rw [h, sub_self])
  · exact Or.inr (by rw [h, sub_self])

/-- An exactly axis-aligned contact pair scores at least as well as any
other contact pair: `scoreGe` holds against every computed score. -/
theorem scoreGe_of_aligned (p q r t : Pt) (h : p.1 = q.1 ∨ p.2 = q.2) :
    scoreGe (computeEdgePerpendicularity p q).score
      (computeEdgePerpendicularity r t).score = true := by
  have hm := aligned_score_m_zero p q h
  have h2 := (perpScore_nonneg r t).1
  have h3 := (perpScore_nonneg p q).2
  unfold scoreGe
  rw [hm]
  apply decide_eq_true
  have : (0 : ℚ) ^ 2 * (computeEdgePerpendicularity r t).score.s = 0 := by ring
  rw [this]
  positivity

theorem mem_edgesAdd_self (l : List (String × String)) (k : String × String) :
    k ∈ edgesAdd l k := by
  unfold edgesAdd; split
  · assumption
  · simp

theorem mem_edgesAdd_of_mem {l : List (String × String)} {q : String × String}
    (k : String × String) (h : q ∈ l) : q ∈ edgesAdd l k := by
  unfold edgesAdd; split
  · exact h
  · exact List.mem_append_left _ h

theorem findEdgeRecord_append (l1 l2 : List EdgeR) (k : String × String) :
    findEdgeRecord (l1 ++ l2) k = (findEdgeRecord l1 k).or (findEdgeRecord l2 k) :=
  List.find?_append

theorem findEdgeRecord_eq_none {l : List EdgeR} {k : String × String}
    (h : ∀ e ∈ l, edgeKey e.source e.target ≠ k) : findEdgeRecord l k = none :=
  List.find?_eq_none.2 fun x hx => by simp [h x hx]

theorem lookupIn_append (l1 l2 : List NodeR) (id : String) :
    lookupIn (l1 ++ l2) id = (lookupIn l1 id).or (lookupIn l2 id) :=
  List.find?_append

theorem lookupIn_eq_none {l : List NodeR} {id : String}
    (h : ∀ n ∈ l, n.id ≠ id) : lookupIn l id = none :=
  List.find?_eq_none.2 fun x hx => by simp [h x hx]

/-- Looking a node up after removing it by id yields nothing. -/
theorem lookupIn_filter_self (l : List NodeR) (id : String) :
    lookupIn (l.filter (fun n => n.id ≠ id)) id = none := by
  apply lookupIn_eq_none
  intro n hn
  have := (List.mem_filter.1 hn).2
  simpa using this

/-! Claim theorems.  `rtZero` is a dummy square-root oracle: no theorem
below evaluates the connector-circle branch, so the oracle's value never
enters any computed result. -/

/-- A square-root oracle whose value is never consulted by the evaluated
traces. -/
def rtZero : ℚ → ℚ := fun _ => 0

/-! Claim C1: undo round trip.  The failing input is a loaded graph where a
degree-2 connector `m` sits between two neighbors `A`, `B` that are *also*
directly adjacent.  `DeleteNode(m)` merges, re-creating the already present
key `(A, B)` (duplicating its record), and its undo removes *every* record
with that key, so the pre-existing edge `(A, B)` is lost. -/

def c1NodeA : NodeR := ⟨"A", "equipment", (5, 5), none, some ⟨0, 0, 10, 10⟩, none, false⟩

def c1NodeB : NodeR := ⟨"B", "equipment", (45, 11/2), none, some ⟨3, 40, 8, 50⟩, none, false⟩

def c1NodeM : NodeR := ⟨"m", "connector", (25, 5), some 225, none, none, true⟩

def c1State : EState := ⟨[c1NodeA, c1NodeB, c1NodeM],
  [("A", "B"), ("A", "m"), ("B", "m")],
  [⟨"A", "B", some (10, 5), some (40, 5), none⟩,
   ⟨"A", "m", some (10, 5), some (25, 5), none⟩,
   ⟨"m", "B", some (25, 5), some (40, 5), none⟩], 0, [], []⟩

/-- C1: undoing the single valid command `DeleteNode("m")` does not return
the graph to the load state: the pre-existing edge `(A, B)` is present
before, the command succeeds, the node `m` is restored by the undo, but the
edge `(A, B)` and its record have vanished. -/
theorem c1_undo_roundtrip_failing_input :
    ("A", "B") ∈ c1State.edges ∧
    (deleteNode rtZero c1State "m").1 = true ∧
    lookupNode (undo (deleteNode rtZero c1State "m").2) "m" = some c1NodeM ∧
    (undo (deleteNode rtZero c1State "m").2).edges = [("A", "m"), ("B", "m")] ∧
    ("A", "B") ∉ (undo (deleteNode rtZero c1State "m").2).edges ∧
    findEdgeRecord (undo (deleteNode rtZero c1State "m").2).edgesData ("A", "B") = none := by
  decide

/-! Claim C2: the good/bad threshold. -/

/-- C2 counterexample: the contact vector `(1, 10000)` deviates from the
vertical axis by far less than one degree and its score `1 - 1/√(10⁸ + 1)`
is at least the claimed constant `0.9998`, yet the code classifies the edge
as bad, because `PERPENDICULARITY_THRESHOLD` is `1.0`, not `≈ 0.9998`. -/
theorem c2_threshold_counterexample :
    (computeEdgePerpendicularity (0, 0) (1, 10000)).isGood = false ∧
    scoreGeQ (computeEdgePerpendicularity (0, 0) (1, 10000)).score (9998 / 10000) = true := by
  decide

/-- C2 amended: the threshold constant is exactly `1.0`, so an edge is good
iff its contact vector is *exactly* axis-aligned (`dx = 0` or `dy = 0`) or
degenerately short (`dx² + dy² < 1e-18`); the aggregate statistics count
good edges with the same `score ≥ PERPENDICULARITY_THRESHOLD` test. -/
theorem c2_good_iff_exact_axis_alignment :
    PERPENDICULARITY_THRESHOLD = 1 ∧
    (∀ es ee : Pt, (computeEdgePerpendicularity es ee).isGood = true ↔
      ((ee.1 - es.1) * (ee.1 - es.1) + (ee.2 - es.2) * (ee.2 - es.2) <
          1 / 1000000000000000000 ∨ ee.1 = es.1 ∨ ee.2 = es.2)) ∧
    (∀ l : List (Pt × Pt),
      (getPerpendicularityStats (l.map (fun pq =>
          computeEdgePerpendicularity pq.1 pq.2))).2.1 =
        l.countP (fun pq =>
          scoreGeQ (computeEdgePerpendicularity pq.1 pq.2).score
            PERPENDICULARITY_THRESHOLD)) := by
  refine ⟨rfl, ?_, ?_⟩
  · intro es ee
    rw [computeEdgePerp_isGood_eq]
    dsimp only [globalAxisPerpendicularity]
    split_ifs with h1 h2
    · simp only [PERPENDICULARITY_THRESHOLD]
      constructor
      · intro _; exact Or.inl h1
      · intro _; decide
    · simp only [PERPENDICULARITY_THRESHOLD, scoreGeQ, Bool.and_eq_true, decide_eq_true_eq]
      constructor
      · rintro ⟨-, hle⟩
        have hy : |ee.2 - es.2| = 0 := by
          have h0 : (0:ℚ) ≤ |ee.2 - es.2| ^ 2 := sq_nonneg _
          have : |ee.2 - es.2| ^ 2 = 0 := le_antisymm (by linarith [hle]) h0
          exact pow_eq_zero_iff (n := 2) (by norm_num) |>.1 this
        exact Or.inr (Or.inr (by have := abs_eq_zero.1 hy; linarith))
      · intro h
        refine ⟨by norm_num, ?_⟩
        have hy : ee.2 - es.2 = 0 := by
          rcases h with h | h | h
          · exact absurd h h1
          · have hx : ee.1 - es.1 = 0 := by linarith
            have : |ee.2 - es.2| ≤ 0 := by simpa [hx] using h2
            exact abs_eq_zero.1 (le_antisymm this (abs_nonneg _))
          · linarith
        simp [hy]
    · simp only [PERPENDICULARITY_THRESHOLD, scoreGeQ, Bool.and_eq_true, decide_eq_true_eq]
      constructor
      · rintro ⟨-, hle⟩
        have hx : |ee.1 - es.1| = 0 := by
          have h0 : (0:ℚ) ≤ |ee.1 - es.1| ^ 2 := sq_nonneg _
          have : |ee.1 - es.1| ^ 2 = 0 := le_antisymm (by linarith [hle]) h0
          exact pow_eq_zero_iff (n := 2) (by norm_num) |>.1 this
        exact Or.inr (Or.inl (by have := abs_eq_zero.1 hx; linarith))
      · intro h
        refine ⟨by norm_num, ?_⟩
        have hx : ee.1 - es.1 = 0 := by
          rcases h with h | h | h
          · exact absurd h h1
          · linarith
          · have hy : ee.2 - es.2 = 0 := by linarith
            exact absurd (by simp [hy, abs_nonneg]) h2
        simp [hx]
  · intro l
    unfold getPerpendicularityStats
    dsimp only
    rw [List.countP_map]
    apply List.countP_congr
    intro pq _
    simp only [Function.comp_apply]
    rw [computeEdgePerp_isGood_eq, computeEdgePerp_score_eq]

/-! Claim C6: the Box-Box purely vertical scenario. -/

def c6NodeA : NodeR := ⟨"A", "equipment", (5, 5), none, some ⟨0, 0, 10, 10⟩, none, false⟩

def c6NodeB : NodeR := ⟨"B", "equipment", (45, 11/2), none, some ⟨3, 40, 8, 50⟩, none, false⟩

def c6State : EState := ⟨[c6NodeA, c6NodeB], [], [], 0, [], []⟩

def c6Rec : EdgeR := ⟨"A", "B", some (10, 5), some (40, 5), some "vertical_center_a"⟩

def c6Result : EState :=
  ⟨[c6NodeA, c6NodeB], [("A", "B")], [c6Rec], 0, [URec.addEdge "A" "B" c6Rec], []⟩

/-- C6: `AddEdge(A, B)` on `A = Box(0,0,10,10)`, `B = Box(3,40,8,50)` stores
contact `(5, 10)` on `A` (record `[y, x] = (10, 5)`) and `(5, 40)` on `B`,
via the priority-1 candidate `"vertical_center_a"` (the vertical line
through `A`'s centroid `x = 5`); the contact vector scores
`⟨0, 900⟩ = 1 - 0/√900 = 1.0` exactly, axis `vertical`, classified good. -/
theorem c6_box_box_vertical_scenario :
    addEdge rtZero c6State "A" "B" = .ok c6Result ∧
    connectBboxBbox ⟨0, 0, 10, 10⟩ ⟨3, 40, 8, 50⟩ none = ((5, 10), (5, 40), "vertical_center_a") ∧
    computeEdgePerpendicularity (5, 10) (5, 40) = ⟨⟨0, 900⟩, .vertical, true⟩ ∧
    scoreGeQ ⟨0, 900⟩ 1 = true := by
  decide

/-! Claim C3: DragNode. -/

def c3NodeA : NodeR := ⟨"A", "equipment", (5, 5), none, some ⟨0, 0, 10, 10⟩, none, false⟩

def c3NodeB : NodeR := ⟨"B", "equipment", (45, 11/2), none, some ⟨3, 40, 8, 50⟩, none, false⟩

def c3State : EState := ⟨[c3NodeA, c3NodeB], [("A", "B")],
  [⟨"A", "B", some (10, 5), some (40, 5), none⟩], 0, [], []⟩

/-- C3 counterexample: dragging the Box node `A` from centroid `(5, 5)` to
`(50, 5)` updates only the centroid; the bbox stays `(0, 0, 10, 10)` instead
of the claimed translation `(45, 0, 55, 10)` by `(new − old) = (45, 0)`. -/
theorem c3_drag_does_not_translate_shape :
    (dragNodeTo c3State "A" 50 5).map (fun s => lookupNode s "A") =
      some (some ⟨"A", "equipment", (5, 50), none, some ⟨0, 0, 10, 10⟩, none, false⟩) ∧
    (⟨0, 0, 10, 10⟩ : BBoxQ) ≠ ⟨45, 0, 55, 10⟩ := by
  decide

/-- C3 amended: `drag_node_to` sets the dragged node's centroid to `[y, x]`
and changes none of its other fields (bbox and polygon are *not*
translated); all other nodes are untouched; non-incident edge records are
untouched; every incident edge record gets both contacts recomputed by the
drag dispatch `dragNewPoints` — the connection engine with no axis lock,
with `connector`-typed nodes treated as points. -/
theorem c3_drag_centroid_only (s : EState) (id : String) (x y : ℚ) (nd : NodeR)
    (s' : EState)
    (hnd : lookupNode s id = some nd)
    (hres : dragNodeTo s id x y = some s') :
    lookupNode s' id = some { nd with centroid := (y, x) } ∧
    (∀ n ∈ s.nodes, n.id ≠ id → n ∈ s'.nodes) ∧
    (∀ e ∈ s.edgesData, e.source ≠ id → e.target ≠ id → e ∈ s'.edgesData) ∧
    (∀ e ∈ s.edgesData, (e.source = id ∨ e.target = id) →
      ∀ src tgt, lookupNode s' e.source = some src → lookupNode s' e.target = some tgt →
        { e with
            sourcePoint := some ((dragNewPoints src tgt).1.2, (dragNewPoints src tgt).1.1),
            targetPoint := some ((dragNewPoints src tgt).2.2, (dragNewPoints src tgt).2.1) }
          ∈ s'.edgesData) := by
  unfold dragNodeTo at hres
  rw [hnd] at hres
  obtain rfl := Option.some.inj hres
  refine ⟨?_, ?_, ?_, ?_⟩
  · have h1 := lookupNode_map_replace s.nodes id nd { nd with centroid := (y, x) } hnd rfl
    simpa only [lookupNode, lookupIn] using h1
  · intro n hn hne
    show n ∈ s.nodes.map fun m => if m.id == id then { nd with centroid := (y, x) } else m
    refine List.mem_map.2 ⟨n, hn, ?_⟩
    simp [hne]
  · intro e he h1 h2
    show e ∈ s.edgesData.map (dragUpdateEdge
      (s.nodes.map fun m => if m.id == id then { nd with centroid := (y, x) } else m) id)
    refine List.mem_map.2 ⟨e, he, ?_⟩
    simp [dragUpdateEdge, h1, h2]
  · intro e he hinc src tgt hsrc htgt
    show _ ∈ s.edgesData.map (dragUpdateEdge
      (s.nodes.map fun m => if m.id == id then { nd with centroid := (y, x) } else m) id)
    refine List.mem_map.2 ⟨e, he, ?_⟩
    have hni : ¬(e.source ≠ id ∧ e.target ≠ id) := by tauto
    simp only [lookupNode, lookupIn] at hsrc htgt
    simp only [dragUpdateEdge, if_neg hni, lookupIn]
    rw [hsrc, htgt]

def c3Dragged : EState := (dragNodeTo c3State "A" 50 5).getD c3State

/-- Witness for the C3 theorem at the concrete drag of `A` to `(50, 5)`. -/
theorem c3_drag_centroid_only_witness :
    lookupNode c3Dragged "A" = some { c3NodeA with centroid := (5, 50) } :=
  (c3_drag_centroid_only c3State "A" 50 5 c3NodeA c3Dragged (by decide) (by decide)).1

/-! Claim C9: failure semantics of `add_edge`. -/

def c9NodeA : NodeR := ⟨"A", "connector", (5, 5), some 225, none, none, false⟩

def c9NodeB : NodeR := ⟨"B", "connector", (45, 11/2), some 225, none, none, false⟩

def c9State : EState := ⟨[c9NodeA], [], [], 0, [], []⟩

def c9DupState : EState := ⟨[c9NodeA, c9NodeB], [("A", "B")],
  [⟨"A", "B", some (5, 5), some (45, 11/2), none⟩], 0, [], []⟩

/-- C9 counterexample: `add_edge("A", "zzz")` with `"zzz"` absent does not
return a typed `NodeMissing` outcome — it raises `KeyError` (the `keyErr`
outcome), and by then `self.edges` has already been mutated: the key
`("A", "zzz")` is present in the raised-from state but not in the input. -/
theorem c9_missing_node_mutates_and_raises :
    addEdge rtZero c9State "A" "zzz" = .keyErr ⟨[c9NodeA], [("A", "zzz")], [], 0, [], []⟩ ∧
    ("A", "zzz") ∈ (addEdge rtZero c9State "A" "zzz").state.edges ∧
    ("A", "zzz") ∉ c9State.edges := by
  decide

/-- C9 amended: the self-loop and duplicate rejections are typed outcomes
with the state unchanged, but a missing node id is not validated: the call
reaches the node lookups only after inserting the edge key, so it ends in
`keyErr` with the edge set mutated. -/
theorem c9_failure_semantics (rt : ℚ → ℚ) (s : EState) (a b : String) :
    (a = b → addEdge rt s a b = .selfLoop s) ∧
    (a ≠ b → edgeKey a b ∈ s.edges → addEdge rt s a b = .duplicate s) ∧
    (a ≠ b → edgeKey a b ∉ s.edges →
      ((lookupNode s a).isNone ∨ (lookupNode s b).isNone) →
      addEdge rt s a b = .keyErr { s with edges := edgesAdd s.edges (edgeKey a b) }) := by
  refine ⟨?_, ?_, ?_⟩
  · intro h
    unfold addEdge
    rw [if_pos h]
  · intro hne hk
    unfold addEdge
    rw [if_neg hne, if_pos hk]
  · intro hne hk hnone
    unfold addEdge
    rw [if_neg hne, if_neg hk]
    cases ha : lookupIn s.nodes a with
    | none =>
      simp only [lookupNode]
      rw [ha]
    | some src =>
      cases hb : lookupIn s.nodes b with
      | none =>
        simp only [lookupNode]
        rw [ha, hb]
      | some tgt =>
        exfalso
        rcases hnone with h | h
        · rw [show lookupNode s a = lookupIn s.nodes a from rfl, ha] at h
          simp at h
        · rw [show lookupNode s b = lookupIn s.nodes b from rfl, hb] at h
          simp at h

/-- Witness for the C9 theorem: the three failure outcomes at concrete
inputs. -/
theorem c9_failure_semantics_witness :
    addEdge rtZero c9State "A" "A" = .selfLoop c9State ∧
    addEdge rtZero c9DupState "A" "B" = .duplicate c9DupState ∧
    addEdge rtZero c9State "A" "zzz" =
      .keyErr { c9State with edges := edgesAdd c9State.edges (edgeKey "A" "zzz") } :=
  ⟨(c9_failure_semantics rtZero c9State "A" "A").1 rfl,
   (c9_failure_semantics rtZero c9DupState "A" "B").2.1 (by decide) (by decide),
   (c9_failure_semantics rtZero c9State "A" "zzz").2.2 (by decide) (by decide) (by decide)⟩

/-! Claim C8: the priority hierarchy of `connect_bbox_bbox`. -/

/-- When the boxes do not overlap on both axes and the priority-1–3
candidate list is non-empty, `connect_bbox_bbox` returns the selected
candidate. -/
theorem connectBboxBbox_choose (a b : BBoxQ) (ra : Option Axis) (c : Cand)
    (hov : bothOverlap a b = false)
    (hc : chooseBestC (bboxCandidates a b ra) = some c) :
    connectBboxBbox a b ra = (c.pa, c.pb, c.ctype) := by
  unfold connectBboxBbox
  rw [hov]
  simp only [Bool.false_eq_true, if_false]
  rw [hc]

/-- C8 counterexample: for the touching boxes `A = Box(0,0,10,10)` and
`B = Box(0,10,10,50)` a priority-1 candidate exists (the vertical through
`A`'s centroid, contacts `(5,10)`–`(5,10)` at distance `0`), but both axes
overlap (the shared boundary `y = 10`), so the code returns the
centroid–centroid `"overlapping"` result instead of the level-1
candidate. -/
theorem c8_overlap_precedes_levels_counterexample :
    connectBboxBbox ⟨0, 0, 10, 10⟩ ⟨0, 10, 10, 50⟩ none = ((5, 5), (5, 30), "overlapping") ∧
    chooseBestC (bboxCandidates ⟨0, 0, 10, 10⟩ ⟨0, 10, 10, 50⟩ none) =
      some ⟨(5, 10), (5, 10), 0, 1, "vertical_center_a"⟩ ∧
    ((5, 5), (5, 30), "overlapping") ≠
      (((5 : ℚ), (10 : ℚ)), ((5 : ℚ), (10 : ℚ)), "vertical_center_a") := by
  decide

/-- C8 amended: *except* when the boxes overlap on both axes (where the
centroid–centroid `"overlapping"` result wins even over an existing level-1
candidate), the returned pair is the candidate of the lowest non-empty
priority level, with the smallest distance within that level. -/
theorem c8_priority_selection (a b : BBoxQ) (ra : Option Axis) (c : Cand)
    (hov : bothOverlap a b = false)
    (hc : chooseBestC (bboxCandidates a b ra) = some c) :
    connectBboxBbox a b ra = (c.pa, c.pb, c.ctype) ∧
    c ∈ bboxCandidates a b ra ∧
    (∀ d ∈ bboxCandidates a b ra, c.prio ≤ d.prio) ∧
    (∀ d ∈ bboxCandidates a b ra, d.prio = c.prio → c.dist ≤ d.dist) := by
  obtain ⟨hmem, hle⟩ := chooseBestC_spec hc
  exact ⟨connectBboxBbox_choose a b ra c hov hc, hmem,
    fun d hd => keyLe_prio (hle d hd),
    fun d hd hp => keyLe_dist (hle d hd) hp⟩

/-- Witness for the C8 theorem: the scenario-1 boxes select the level-1
vertical candidate. -/
theorem c8_priority_selection_witness :
    connectBboxBbox ⟨0, 0, 10, 10⟩ ⟨3, 40, 8, 50⟩ none = ((5, 10), (5, 40), "vertical_center_a") :=
  (c8_priority_selection ⟨0, 0, 10, 10⟩ ⟨3, 40, 8, 50⟩ none
    ⟨(5, 10), (5, 40), 30, 1, "vertical_center_a"⟩ (by decide) (by decide)).1

/-! Claim C7: `optimize_edge` monotonicity. -/

def c7NodeA : NodeR := ⟨"A", "equipment", (5, 5), none, some ⟨0, 0, 10, 10⟩, none, false⟩

def c7NodeB : NodeR := ⟨"B", "equipment", (10, 10), none, some ⟨5, 5, 15, 15⟩, none, false⟩

def c7State : EState := ⟨[c7NodeA, c7NodeB], [("A", "B")],
  [⟨"A", "B", some (10, 7), some (15, 7), none⟩], 0, [], []⟩

/-- C7 counterexample: the edge `(A, B)` between the overlapping boxes
`Box(0,0,10,10)` and `Box(5,5,15,15)` has perfectly vertical contacts
`(7,10)`–`(7,15)` (score `1.0`, derived lock `vertical`), but
`optimize_edge` rewrites them to the centroid pair `(5,5)`–`(10,10)` via the
`"overlapping"` early return, whose score `1 − 5/√50 ≈ 0.29` is *strictly
smaller* — the old score exceeds the new one. -/
theorem c7_optimize_decreases_score_counterexample :
    (globalAxisPerpendicularity ((7 : ℚ) - 7) ((15 : ℚ) - 10)).2 = Axis.vertical ∧
    (optimizeEdge rtZero c7State "A" "B").1 = true ∧
    (optimizeEdge rtZero c7State "A" "B").2.edgesData =
      [⟨"A", "B", some (5, 5), some (10, 10), none⟩] ∧
    scoreGt (computeEdgePerpendicularity (7, 10) (7, 15)).score
      (computeEdgePerpendicularity (5, 5) (10, 10)).score = true := by
  decide

/-- C7 amended: whenever the recomputation under the derived lock finds a
perpendicular (priority-1–3) candidate — in particular the boxes do not
overlap on both axes — the new contacts are exactly axis-aligned, so their
score is `1.0` and never below the old score; the decrease of the
counterexample can only happen in the `"overlapping"` or wall-to-wall
fallback paths. -/
theorem c7_optimize_perpendicular_candidate_monotone (rt : ℚ → ℚ) (s : EState)
    (na nb : String) (ed : EdgeR) (src tgt : NodeR) (sb tb : BBoxQ)
    (sp tp : ℚ × ℚ) (c : Cand)
    (hk : edgeKey na nb ∈ s.edges)
    (hed : findEdgeRecord s.edgesData (edgeKey na nb) = some ed)
    (hsp : ed.sourcePoint = some sp) (htp : ed.targetPoint = some tp)
    (hsrc : lookupNode s ed.source = some src)
    (htgt : lookupNode s ed.target = some tgt)
    (hsb : src.bbox = some sb) (htb : tgt.bbox = some tb)
    (hsseg : src.segmentation = none) (htseg : tgt.segmentation = none)
    (hov : bothOverlap sb tb = false)
    (hc : chooseBestC (bboxCandidates sb tb
        (some (globalAxisPerpendicularity (tp.2 - sp.2) (tp.1 - sp.1)).2)) = some c) :
    (optimizeEdge rt s na nb).1 = true ∧
    (optimizeEdge rt s na nb).2.edgesData =
      updateFirstRecord s.edgesData (edgeKey na nb)
        (fun e => { e with sourcePoint := some (c.pa.2, c.pa.1),
                           targetPoint := some (c.pb.2, c.pb.1) }) ∧
    scoreGe (computeEdgePerpendicularity c.pa c.pb).score
      (computeEdgePerpendicularity (sp.2, sp.1) (tp.2, tp.1)).score = true := by
  have hcb := connectBboxBbox_choose sb tb
    (some (globalAxisPerpendicularity (tp.2 - sp.2) (tp.1 - sp.1)).2) c hov hc
  have halign := bboxCandidates_aligned sb tb
    (some (globalAxisPerpendicularity (tp.2 - sp.2) (tp.1 - sp.1)).2) c
    (chooseBestC_spec hc).1
  have hdisp : optimizeDispatch src tgt
      (some (globalAxisPerpendicularity (tp.2 - sp.2) (tp.1 - sp.1)).2) =
      some (c.pa, c.pb) := by
    unfold optimizeDispatch
    have h1 : isPointN src = false := by simp [isPointN, hsb]
    have h2 : isPointN tgt = false := by simp [isPointN, htb]
    have h3 : getPoly src = none := by simp [getPoly, hsseg]
    have h4 : getPoly tgt = none := by simp [getPoly, htseg]
    rw [hsb, htb, h3, h4]
    simp only [h1, h2, Bool.false_eq_true, false_and, if_false, hcb]
  have hrun : optimizeEdge rt s na nb =
      (true, { s with
        edgesData := updateFirstRecord s.edgesData (edgeKey na nb)
          (fun e => { e with sourcePoint := some (c.pa.2, c.pa.1),
                             targetPoint := some (c.pb.2, c.pb.1) }),
        perpScores := perpSet s.perpScores (edgeKey na nb)
          (computeEdgePerpendicularity c.pa c.pb),
        undoStack := pushUndo s.undoStack
          (URec.optimizeEdge ed.source ed.target ed.sourcePoint ed.targetPoint) }) := by
    unfold optimizeEdge
    rw [if_neg (not_not_intro hk), hed]
    dsimp only
    rw [hsp, htp]
    dsimp only
    rw [hsrc, htgt]
    dsimp only
    rw [hdisp]
  refine ⟨by rw [hrun], by rw [hrun], ?_⟩
  exact scoreGe_of_aligned c.pa c.pb _ _ halign

def c7wState : EState := ⟨[c7NodeA, c6NodeB], [("A", "B")],
  [⟨"A", "B", some (10, 5), some (40, 5), none⟩], 0, [], []⟩

/-- Witness for the C7 theorem: on the scenario-1 boxes with already
vertical contacts, the lock is vertical, a level-1 candidate exists, and the
optimized score is at least the old one. -/
theorem c7_optimize_perpendicular_candidate_monotone_witness :
    (optimizeEdge rtZero c7wState "A" "B").1 = true :=
  (c7_optimize_perpendicular_candidate_monotone rtZero c7wState "A" "B"
    ⟨"A", "B", some (10, 5), some (40, 5), none⟩ c7NodeA c6NodeB
    ⟨0, 0, 10, 10⟩ ⟨3, 40, 8, 50⟩ (10, 5) (40, 5)
    ⟨(5, 10), (5, 40), 30, 1, "vertical_center_a"⟩
    (by decide) (by decide) (by decide) (by decide) (by decide) (by decide)
    (by decide) (by decide) (by decide) (by decide) (by decide) (by decide)).1

/-! Claim C5: delete-with-merge contact computation. -/

def c5NodeA : NodeR := ⟨"A", "equipment", (5, 5), none, some ⟨0, 0, 10, 10⟩, none, false⟩

def c5NodeB : NodeR := ⟨"B", "equipment", (45, 11/2), none, some ⟨3, 40, 8, 50⟩, none, false⟩

def c5NodeM : NodeR := ⟨"node_manual_1", "connector", (25, 5), some 225, none, none, true⟩

def c5State : EState := ⟨[c5NodeA, c5NodeB, c5NodeM],
  [("A", "node_manual_1"), ("B", "node_manual_1")],
  [⟨"A", "node_manual_1", some (10, 5), some (25, 5), none⟩,
   ⟨"node_manual_1", "B", some (25, 5), some (40, 5), none⟩], 1, [], []⟩

/-- C5 counterexample: deleting the degree-2 connector of the §8 split
scenario merges `A` and `B`, but the merge edge's contacts come from
`get_connection_point` (ray from the shape centre towards the other node's
centroid): `(5.0625, 10)` on `A` and `(5.4375, 40)` on `B` — not the
`(5, 10)`/`(5, 40)` that `AddEdge`'s `connect_bbox_bbox` selection (shown in
the last conjunct) would produce. -/
theorem c5_merge_contacts_counterexample :
    (deleteNode rtZero c5State "node_manual_1").2.edges = [("A", "B")] ∧
    (deleteNode rtZero c5State "node_manual_1").2.edgesData =
      [⟨"A", "B", some (10, 81/16), some (40, 87/16), none⟩] ∧
    ((10 : ℚ), (81 : ℚ)/16) ≠ ((10 : ℚ), (5 : ℚ)) ∧
    connectBboxBbox ⟨0, 0, 10, 10⟩ ⟨3, 40, 8, 50⟩ none =
      ((5, 10), (5, 40), "vertical_center_a") := by
  decide

/-- C5 amended: deleting a `connector` with exactly two neighbors removes
the two incident edges and adds one edge `(n1, n2)` whose contacts are
computed by `get_connection_point` — the boundary projection from each
neighbor's shape centre towards the other neighbor's centroid — not by the
`AddEdge` connection engine. -/
theorem c5_merge_uses_connection_point (rt : ℚ → ℚ) (s : EState) (id : String)
    (node nn1 nn2 : NodeR) (n1 n2 : String)
    (hnode : lookupNode s id = some node)
    (hconn : node.ntype = "connector")
    (hnb : neighborsOf s id = [n1, n2])
    (hn1 : lookupIn (s.nodes.filter (fun n => n.id ≠ id)) n1 = some nn1)
    (hn2 : lookupIn (s.nodes.filter (fun n => n.id ≠ id)) n2 = some nn2) :
    (deleteNode rt s id).1 = true ∧
    (deleteNode rt s id).2.edges =
      edgesAdd (s.edges.filter (fun k => k ∉ connectedKeysOf s id)) (edgeKey n1 n2) ∧
    (deleteNode rt s id).2.edgesData =
      (s.edgesData.filter (fun e => edgeKey e.source e.target ∉ connectedKeysOf s id)) ++
        [⟨n1, n2,
          some ((getConnectionPointN rt nn1 nn2.centroid.2 nn2.centroid.1).2,
                (getConnectionPointN rt nn1 nn2.centroid.2 nn2.centroid.1).1),
          some ((getConnectionPointN rt nn2 nn1.centroid.2 nn1.centroid.1).2,
                (getConnectionPointN rt nn2 nn1.centroid.2 nn1.centroid.1).1), none⟩] ∧
    lookupNode (deleteNode rt s id).2 id = none := by
  have hsm : (node.ntype == "connector" && (([n1, n2].length : ℕ) == 2)) = true := by
    rw [hconn]; rfl
  have hD : deleteNode rt s id = (true,
      { nodes := s.nodes.filter (fun n => n.id ≠ id),
        edges := edgesAdd (s.edges.filter (fun k => k ∉ connectedKeysOf s id)) (edgeKey n1 n2),
        edgesData :=
          (s.edgesData.filter (fun e => edgeKey e.source e.target ∉ connectedKeysOf s id)) ++
            [⟨n1, n2,
              some ((getConnectionPointN rt nn1 nn2.centroid.2 nn2.centroid.1).2,
                    (getConnectionPointN rt nn1 nn2.centroid.2 nn2.centroid.1).1),
              some ((getConnectionPointN rt nn2 nn1.centroid.2 nn1.centroid.1).2,
                    (getConnectionPointN rt nn2 nn1.centroid.2 nn1.centroid.1).1), none⟩],
        manualCounter := s.manualCounter,
        undoStack := pushUndo s.undoStack (URec.deleteNode id node
          ((connectedKeysOf s id).filterMap (fun k => findEdgeRecord s.edgesData k))
          [n1, n2]
          (findEdgeRecord
            ((s.edgesData.filter (fun e => edgeKey e.source e.target ∉ connectedKeysOf s id)) ++
              [⟨n1, n2,
                some ((getConnectionPointN rt nn1 nn2.centroid.2 nn2.centroid.1).2,
                      (getConnectionPointN rt nn1 nn2.centroid.2 nn2.centroid.1).1),
                some ((getConnectionPointN rt nn2 nn1.centroid.2 nn1.centroid.1).2,
                      (getConnectionPointN rt nn2 nn1.centroid.2 nn1.centroid.1).1), none⟩])
            (edgeKey n1 n2))),
        perpScores := s.perpScores }) := by
    unfold deleteNode
    rw [hnode]
    dsimp only
    rw [hnb]
    rw [if_pos hsm]
    unfold createEdgeWithPoints getConnectionPoint
    simp only [lookupNode]
    rw [hn1, hn2]
    dsimp only
    rw [if_pos hsm]
  rw [hD]
  refine ⟨rfl, rfl, rfl, ?_⟩
  exact lookupIn_filter_self s.nodes id

/-- Witness for the C5 theorem at the §8 scenario. -/
theorem c5_merge_uses_connection_point_witness :
    (deleteNode rtZero c5State "node_manual_1").1 = true :=
  (c5_merge_uses_connection_point rtZero c5State "node_manual_1" c5NodeM c5NodeA c5NodeB
    "A" "B" (by decide) rfl (by decide) (by decide) (by decide)).1

/-- The pre-split state of the §8 scenario: `A` and `B` joined by one edge
whose stored contacts are `(10, 5)` on `A` and `(40, 5)` on `B`. -/
def c4State : EState := ⟨[c5NodeA, c5NodeB], [("A", "B")],
  [⟨"A", "B", some (10, 5), some (40, 5), some "vertical_center_a"⟩], 0, [], []⟩

/-- C4: `add_connector_on_edge` on an existing edge `k = (a, b)` at
`(px, py)` creates the manual connector `m` at centroid `[py, px]`, replaces
the edge by `(a, m)` and `(m, b)`, and the stored contact on `a` in `(a, m)`
is exactly the original contact on `a` — extracted orientation-aware from
the old record (`source_point` when `a` was the source, else
`target_point`) — and symmetrically for `b`; both contacts at `m` equal the
split point. -/
theorem c4_split_preserves_contacts (rt : ℚ → ℚ) (s : EState)
    (k : String × String) (px py : ℚ) (o : EdgeR) (qa qb : ℚ × ℚ) (nid : String)
    (hnid : nid = "node_manual_" ++ toString (s.manualCounter + 1))
    (hk : k ∈ s.edges) (hne : k.1 ≠ k.2)
    (ho : findEdgeRecord s.edgesData k = some o)
    (hqa : (if o.source = k.1 then o.sourcePoint else o.targetPoint) = some qa)
    (hqb : (if o.source = k.1 then o.targetPoint else o.sourcePoint) = some qb)
    (hfn : ∀ n ∈ s.nodes, n.id ≠ nid)
    (hf1 : ∀ e ∈ eraseFirstP s.edgesData (fun e => edgeKey e.source e.target == k),
      edgeKey e.source e.target ≠ edgeKey k.1 nid)
    (hf2 : ∀ e ∈ eraseFirstP s.edgesData (fun e => edgeKey e.source e.target == k),
      edgeKey e.source e.target ≠ edgeKey nid k.2) :
    ∃ t, addConnectorOnEdge rt s k px py = some (t, nid) ∧
      lookupNode t nid = some ⟨nid, "connector", (py, px), some 225, none, none, true⟩ ∧
      edgeKey k.1 nid ∈ t.edges ∧ edgeKey nid k.2 ∈ t.edges ∧
      findEdgeRecord t.edgesData (edgeKey k.1 nid) =
        some ⟨k.1, nid, some qa, some (py, px), none⟩ ∧
      findEdgeRecord t.edgesData (edgeKey nid k.2) =
        some ⟨nid, k.2, some (py, px), some qb, none⟩ := by
  subst hnid
  have hA : addConnectorOnEdge rt s k px py = some
      ({ nodes := insertNode s.nodes
            ⟨"node_manual_" ++ toString (s.manualCounter + 1), "connector",
              (py, px), some 225, none, none, true⟩,
         edges := edgesAdd (edgesAdd (s.edges.filter (fun kk => kk ≠ k))
            (edgeKey k.1 ("node_manual_" ++ toString (s.manualCounter + 1))))
            (edgeKey ("node_manual_" ++ toString (s.manualCounter + 1)) k.2),
         edgesData := (eraseFirstP s.edgesData (fun e => edgeKey e.source e.target == k) ++
            [⟨k.1, "node_manual_" ++ toString (s.manualCounter + 1), some qa,
              some (py, px), none⟩]) ++
            [⟨"node_manual_" ++ toString (s.manualCounter + 1), k.2, some (py, px),
              some qb, none⟩],
         manualCounter := s.manualCounter + 1,
         undoStack := pushUndo s.undoStack (URec.addConnectorOnEdge
            ("node_manual_" ++ toString (s.manualCounter + 1)) k.1 k.2 (some o)),
         perpScores := s.perpScores },
        "node_manual_" ++ toString (s.manualCounter + 1)) := by
    unfold addConnectorOnEdge
    rw [if_neg (not_not_intro hk)]
    dsimp only
    rw [ho]
    dsimp only
    rw [hqa, hqb]
    unfold createEdgeWithPoints
    dsimp only
  refine ⟨_, hA, ?_, ?_, ?_, ?_, ?_⟩
  · have hany : (s.nodes.any fun m =>
        m.id == "node_manual_" ++ toString (s.manualCounter + 1)) = false := by
      rw [List.any_eq_false]
      intro m hm
      simpa using hfn m hm
    have hins : insertNode s.nodes
        ⟨"node_manual_" ++ toString (s.manualCounter + 1), "connector",
          (py, px), some 225, none, none, true⟩ =
        s.nodes ++ [⟨"node_manual_" ++ toString (s.manualCounter + 1), "connector",
          (py, px), some 225, none, none, true⟩] := by
      unfold insertNode
      rw [hany]
      rfl
    unfold lookupNode
    dsimp only
    rw [hins, lookupIn_append, lookupIn_eq_none hfn]
    simp [lookupIn]
  · exact mem_edgesAdd_of_mem _ (mem_edgesAdd_self _ _)
  · exact mem_edgesAdd_self _ _
  · dsimp only
    rw [findEdgeRecord_append, findEdgeRecord_append, findEdgeRecord_eq_none hf1]
    simp [findEdgeRecord]
  · dsimp only
    rw [findEdgeRecord_append, findEdgeRecord_append, findEdgeRecord_eq_none hf2]
    have h1 : findEdgeRecord
        [(⟨k.1, "node_manual_" ++ toString (s.manualCounter + 1), some qa,
            some (py, px), none⟩ : EdgeR)]
        (edgeKey ("node_manual_" ++ toString (s.manualCounter + 1)) k.2) = none := by
      apply findEdgeRecord_eq_none
      intro e he hcontra
      rw [List.mem_singleton] at he
      subst he
      rcases edgeKey_eq_cases hcontra with ⟨ha, hb⟩ | ⟨ha, hb⟩
      · exact hne (ha.trans hb)
      · exact hne ha
    rw [h1]
    simp [findEdgeRecord]

/-- Witness for the C4 theorem at the §8 scenario: splitting the `A`–`B`
edge at `(5, 25)`. -/
theorem c4_split_preserves_contacts_witness :
    ∃ t, addConnectorOnEdge rtZero c4State ("A", "B") 5 25 = some (t, "node_manual_1") ∧
      lookupNode t "node_manual_1" =
        some ⟨"node_manual_1", "connector", (25, 5), some 225, none, none, true⟩ ∧
      edgeKey "A" "node_manual_1" ∈ t.edges ∧ edgeKey "node_manual_1" "B" ∈ t.edges ∧
      findEdgeRecord t.edgesData (edgeKey "A" "node_manual_1") =
        some ⟨"A", "node_manual_1", some (10, 5), some (25, 5), none⟩ ∧
      findEdgeRecord t.edgesData (edgeKey "node_manual_1" "B") =
        some ⟨"node_manual_1", "B", some (25, 5), some (40, 5), none⟩ :=
  c4_split_preserves_contacts rtZero c4State ("A", "B") 5 25
    ⟨"A", "B", some (10, 5), some (40, 5), some "vertical_center_a"⟩
    (10, 5) (40, 5) "node_manual_1" (by decide) (by decide) (by decide) (by decide)
    (by decide) (by decide) (by decide) (by decide) (by decide)

/-- C10: the manual-node counter is never decremented.  The connector
commands return the id `node_manual_(counter+1)` and set the counter to
`counter + 1`; `undo` — including the branches that remove a connector
created by `add_connector_on_edge` or `add_connector_isolated` — and every
other editor command leave the counter unchanged, so manual ids are issued
in strictly increasing order and never reused within a session. -/
theorem c10_manual_counter_monotone :
    (∀ rt s k px py, (addConnectorOnEdge rt s k px py).map
        (fun r => (r.1.manualCounter, r.2)) =
      (addConnectorOnEdge rt s k px py).map
        (fun _ => (s.manualCounter + 1,
          "node_manual_" ++ toString (s.manualCounter + 1)))) ∧
    (∀ s px py, (addConnectorIsolated s px py).1.manualCounter = s.manualCounter + 1 ∧
      (addConnectorIsolated s px py).2 =
        "node_manual_" ++ toString (s.manualCounter + 1)) ∧
    (∀ s, (undo s).manualCounter = s.manualCounter) ∧
    (∀ rt s na nb, ((addEdge rt s na nb).state).manualCounter = s.manualCounter) ∧
    (∀ s na nb, (removeEdge s na nb).2.manualCounter = s.manualCounter) ∧
    (∀ rt s id, (deleteNode rt s id).2.manualCounter = s.manualCounter) ∧
    (∀ rt s na nb, (optimizeEdge rt s na nb).2.manualCounter = s.manualCounter) ∧
    (∀ s id x y, (dragNodeTo s id x y).map EState.manualCounter =
      (dragNodeTo s id x y).map (fun _ => s.manualCounter)) := by
  refine ⟨?_, ?_, ?_, ?_, ?_, ?_, ?_, ?_⟩
  · intro rt s k px py
    unfold addConnectorOnEdge
    split <;> rfl
  · intro s px py
    exact ⟨rfl, rfl⟩
  · intro s
    unfold undo
    cases hst : s.undoStack with
    | nil => rfl
    | cons r rest =>
      cases r with
      | addEdge na nb ed => rfl
      | removeEdge na nb edOpt => rfl
      | addConnectorOnEdge nid na nb oldOpt =>
        dsimp only
        split <;> rfl
      | addConnectorIsolated nid => rfl
      | deleteNode nid nodeB backup mergedNeighbors newEdgeOpt =>
        dsimp only
        refine (foldl_preserves_counter _ ?_ _ _).trans ?_
        · intro acc e
          rfl
        · repeat' split
          all_goals rfl
      | optimizeEdge na nb ospOpt otpOpt => rfl
      | dragNode nid oldCentroid oldPoints =>
        dsimp only
        split
        · rfl
        · refine (foldl_preserves_counter _ ?_ _ _).trans ?_
          · intro acc entry
            dsimp only
            repeat' split
            all_goals rfl
          · rfl
  · intro rt s na nb
    unfold addEdge
    dsimp only
    repeat' split
    all_goals rfl
  · intro s na nb
    unfold removeEdge
    dsimp only
    split <;> rfl
  · intro rt s id
    unfold deleteNode
    dsimp only
    repeat' split
    all_goals rfl
  · intro rt s na nb
    unfold optimizeEdge
    dsimp only
    repeat' split
    all_goals rfl
  · intro s id x y
    unfold dragNodeTo
    split <;> rfl

end PidPipeline

